import Mathlib

/-!
# 2D cell growth simulation

A shallow embedding of the cell-state rule, the recursive medicine heal, the
mouse stimulus and the three tick drivers of the simulation
(`Version1`: four fixed threads, `Version2`: TBB `parallel_for`,
`Version4`: OpenCL kernel), together with the properties proved about them.

The global array `g_quad[g_windowWidth][g_windowHeight]` is a function from
coordinates to `int` cell values; every operation that mutates the global
takes the grid and returns the new grid.
-/

namespace CellGrowth

/-- The array `g_quad`: `g x y` is `g_quad[x][y]`. -/
abbrev Grid := Nat → Nat → Int

/-- Source: `const int g_windowWidth = 1024;` -/
def g_windowWidth : Nat := 1024

/-- Source: `const int g_windowHeight = 768;` -/
def g_windowHeight : Nat := 768

/-- The assignment `g_quad[x][y] = v`. -/
def setCell (g : Grid) (x y : Nat) (v : Int) : Grid :=
  fun a b => if a = x ∧ b = y then v else g a b

/-- A coordinate pair that indexes `g_quad` within its declared extents. -/
def InBounds (p : Nat × Nat) : Prop := p.1 < g_windowWidth ∧ p.2 < g_windowHeight

instance (p : Nat × Nat) : Decidable (InBounds p) := by
  unfold InBounds; infer_instance

/-- Two distinct in-bounds cells that differ by at most one in each coordinate. -/
def MooreAdj (a b : Nat × Nat) : Prop :=
  InBounds a ∧ InBounds b ∧ a ≠ b ∧
    a.1 ≤ b.1 + 1 ∧ b.1 ≤ a.1 + 1 ∧ a.2 ≤ b.2 + 1 ∧ b.2 ≤ a.2 + 1

instance (a b : Nat × Nat) : Decidable (MooreAdj a b) := by
  unfold MooreAdj; infer_instance

/-- The Moore neighbourhood of `(x, y)` clipped to the grid, as a set of cells. -/
def mooreNbrs (x y : Nat) : Finset (Nat × Nat) :=
  ((Finset.Icc (x - 1) (x + 1)) ×ˢ (Finset.Icc (y - 1) (y + 1))).filter
    (fun p => p ≠ (x, y) ∧ InBounds p)

/-- How many cells of the clipped Moore neighbourhood of `(x, y)` hold the value `v`. -/
def mooreCount (g : Grid) (x y : Nat) (v : Int) : Nat :=
  ((mooreNbrs x y).filter (fun p => g p.1 p.2 = v)).card

/-- The neighbour coordinates reached by the eight guarded accesses shared by
`HealSurroundingMedicine`, `UpdateState` and `MouseClicks`, in source order. -/
def guardedNbrs (x y : Nat) : List (Nat × Nat) :=
  (if x > 0 ∧ y > 0 then [(x - 1, y - 1)] else []) ++
  (if y > 0 then [(x, y - 1)] else []) ++
  (if x < g_windowWidth - 1 ∧ y > 0 then [(x + 1, y - 1)] else []) ++
  (if x > 0 then [(x - 1, y)] else []) ++
  (if x < g_windowWidth - 1 then [(x + 1, y)] else []) ++
  (if x > 0 ∧ y < g_windowHeight - 1 then [(x - 1, y + 1)] else []) ++
  (if y < g_windowHeight - 1 then [(x, y + 1)] else []) ++
  (if x < g_windowWidth - 1 ∧ y < g_windowHeight - 1 then [(x + 1, y + 1)] else [])

/-- How many of the `UpdateState` calls in `calls` were made with coordinates `p`. -/
def callCount (calls : List (Nat × Nat)) (p : Nat × Nat) : Nat :=
  calls.countP (fun q => decide (q = p))

/-- The increment `1` when the condition holds, `0` otherwise. -/
def oneIf (c : Prop) [Decidable c] : Nat := if c then 1 else 0

/-- The outcome of code that indexes `g_quad`: a value, the `OutOfBounds` failure
of a checked accessor (the Grid Store contract `get`/`set` of the specification),
or the undefined behaviour of a C array access with an index outside the declared
extents. -/
inductive Outcome (α : Type) where
  | ok (a : α)
  | outOfBounds
  | undefinedBehaviour

/-- Sequencing of outcomes: the first failure ends the run. -/
def Outcome.bind {α β : Type} (o : Outcome α) (f : α → Outcome β) : Outcome β :=
  match o with
  | Outcome.ok a => f a
  | Outcome.outOfBounds => Outcome.outOfBounds
  | Outcome.undefinedBehaviour => Outcome.undefinedBehaviour

/-- The `int` index pair `(x, y)` lies within the declared extents of
`g_quad[g_windowWidth][g_windowHeight]`. -/
def InExtents (x y : Int) : Prop :=
  0 ≤ x ∧ x < (g_windowWidth : Int) ∧ 0 ≤ y ∧ y < (g_windowHeight : Int)

instance (x y : Int) : Decidable (InExtents x y) := by
  unfold InExtents; infer_instance

/-- The read `g_quad[x][y]` as the source writes it, without a test on `x` and
`y`: undefined behaviour outside the extents. -/
def rawRead (g : Grid) (x y : Int) : Outcome Int :=
  if InExtents x y then Outcome.ok (g x.toNat y.toNat) else Outcome.undefinedBehaviour

/-- The assignment `g_quad[x][y] = v` as the source writes it, without a test on
`x` and `y`: undefined behaviour outside the extents. -/
def rawWrite (g : Grid) (x y : Int) (v : Int) : Outcome Grid :=
  if InExtents x y then Outcome.ok (setCell g x.toNat y.toNat v) else Outcome.undefinedBehaviour

namespace Version1

/-- Source: `#define HEALTHY  0` -/
def HEALTHY : Int := 0

/-- Source: `#define CANCER   1` -/
def CANCER : Int := 1

/-- Source: `#define MEDICINE 2` -/
def MEDICINE : Int := 2

/-- Source: `void HealSurroundingMedicine(int x, int y)`.  The first argument bounds the
depth of the recursion; `none` means the bound was reached. -/
def HealSurroundingMedicine : Nat → Grid → Nat → Nat → Option Grid
  | 0, _, _, _ => none
  | fuel + 1, g, x, y =>
    let g0 := setCell g x y HEALTHY
    (if x > 0 ∧ y > 0 then
      if g0 (x - 1) (y - 1) = MEDICINE then HealSurroundingMedicine fuel g0 (x - 1) (y - 1)
      else some g0
     else some g0).bind fun g1 =>
    (if y > 0 then
      if g1 x (y - 1) = MEDICINE then HealSurroundingMedicine fuel g1 x (y - 1)
      else some g1
     else some g1).bind fun g2 =>
    (if x < g_windowWidth - 1 ∧ y > 0 then
      if g2 (x + 1) (y - 1) = MEDICINE then HealSurroundingMedicine fuel g2 (x + 1) (y - 1)
      else some g2
     else some g2).bind fun g3 =>
    (if x > 0 then
      if g3 (x - 1) y = MEDICINE then HealSurroundingMedicine fuel g3 (x - 1) y
      else some g3
     else some g3).bind fun g4 =>
    (if x < g_windowWidth - 1 then
      if g4 (x + 1) y = MEDICINE then HealSurroundingMedicine fuel g4 (x + 1) y
      else some g4
     else some g4).bind fun g5 =>
    (if x > 0 ∧ y < g_windowHeight - 1 then
      if g5 (x - 1) (y + 1) = MEDICINE then HealSurroundingMedicine fuel g5 (x - 1) (y + 1)
      else some g5
     else some g5).bind fun g6 =>
    (if y < g_windowHeight - 1 then
      if g6 x (y + 1) = MEDICINE then HealSurroundingMedicine fuel g6 x (y + 1)
      else some g6
     else some g6).bind fun g7 =>
    (if x < g_windowWidth - 1 ∧ y < g_windowHeight - 1 then
      if g7 (x + 1) (y + 1) = MEDICINE then HealSurroundingMedicine fuel g7 (x + 1) (y + 1)
      else some g7
     else some g7)

/-- The value of `_numSurrounded` after the eight guarded neighbour checks of
`UpdateState`, for the comparison value `_before`. -/
def numSurrounded (g : Grid) (x y : Nat) (_before : Int) : Nat :=
  let n0 : Nat := 0
  let n1 := if x > 0 ∧ y > 0 then (if g (x - 1) (y - 1) = _before then n0 + 1 else n0) else n0
  let n2 := if y > 0 then (if g x (y - 1) = _before then n1 + 1 else n1) else n1
  let n3 := if x < g_windowWidth - 1 ∧ y > 0 then
    (if g (x + 1) (y - 1) = _before then n2 + 1 else n2) else n2
  let n4 := if x > 0 then (if g (x - 1) y = _before then n3 + 1 else n3) else n3
  let n5 := if x < g_windowWidth - 1 then (if g (x + 1) y = _before then n4 + 1 else n4) else n4
  let n6 := if x > 0 ∧ y < g_windowHeight - 1 then
    (if g (x - 1) (y + 1) = _before then n5 + 1 else n5) else n5
  let n7 := if y < g_windowHeight - 1 then (if g x (y + 1) = _before then n6 + 1 else n6) else n6
  if x < g_windowWidth - 1 ∧ y < g_windowHeight - 1 then
    (if g (x + 1) (y + 1) = _before then n7 + 1 else n7) else n7

/-- Source: `void UpdateState(int x, int y, int state)`; the first argument is the
recursion bound handed to `HealSurroundingMedicine`. -/
def UpdateState (fuel : Nat) (g : Grid) (x y : Nat) (state : Int) : Option Grid :=
  if state = HEALTHY ∨ state = CANCER then
    let _before : Int := if state = HEALTHY then CANCER else if state = CANCER then MEDICINE else 0
    let _after : Int := if state = HEALTHY then CANCER else if state = CANCER then HEALTHY else 0
    let _numSurrounded := numSurrounded g x y _before
    if _numSurrounded ≥ 6 then
      if state = CANCER then HealSurroundingMedicine fuel g x y
      else some (setCell g x y _after)
    else some g
  else some g

/-- The coordinates `(i, j)` for which `InitThread(startX, startY, endX, endY)`
calls `UpdateState(i, j, g_quad[i][j])`, in loop order. -/
def InitThreadCalls (startX startY endX endY : Nat) : List (Nat × Nat) :=
  (List.range' startX (endX - startX)).flatMap fun i =>
    (List.range' startY (endY - startY)).map fun j => (i, j)

/-- Source: `void InitThread(int startX, int startY, int endX, int endY)`: the nested
loop applies `UpdateState` to the grid left by the previous iteration. -/
def InitThread (fuel : Nat) (g : Grid) (startX startY endX endY : Nat) : Option Grid :=
  (InitThreadCalls startX startY endX endY).foldlM
    (fun g p => UpdateState fuel g p.1 p.2 (g p.1 p.2)) g

/-- The `UpdateState` calls made during one `Update`: those of the four threads
`InitThread(0, 0, 513, 385)`, `InitThread(512, 0, 1024, 385)`,
`InitThread(0, 384, 513, 768)` and `InitThread(512, 384, 1024, 768)`. -/
def UpdateCalls : List (Nat × Nat) :=
  InitThreadCalls 0 0 513 385 ++ InitThreadCalls 512 0 1024 385 ++
  InitThreadCalls 0 384 513 768 ++ InitThreadCalls 512 384 1024 768

/-- Source: `GLUT_LEFT_BUTTON` of `GL/glut.h`. -/
def GLUT_LEFT_BUTTON : Int := 0

/-- Source: `GLUT_DOWN` of `GL/glut.h`. -/
def GLUT_DOWN : Int := 0

/-- Source: `void MouseClicks(int button, int state, int x, int y)`, for click
coordinates inside the grid, where every array access it makes is in range;
`MouseClicksRaw` is the same function for arbitrary `int` coordinates. -/
def MouseClicks (g : Grid) (button state : Int) (x y : Nat) : Grid :=
  if button = GLUT_LEFT_BUTTON ∧ state = GLUT_DOWN then
    if g x y = CANCER then
      setCell g x y HEALTHY
    else
      let g0 := setCell g x y MEDICINE
      let g1 := if x > 0 ∧ y > 0 then setCell g0 (x - 1) (y - 1) MEDICINE else g0
      let g2 := if y > 0 then setCell g1 x (y - 1) MEDICINE else g1
      let g3 := if x < g_windowWidth - 1 ∧ y > 0 then setCell g2 (x + 1) (y - 1) MEDICINE else g2
      let g4 := if x > 0 then setCell g3 (x - 1) y MEDICINE else g3
      let g5 := if x < g_windowWidth - 1 then setCell g4 (x + 1) y MEDICINE else g4
      let g6 := if x > 0 ∧ y < g_windowHeight - 1 then setCell g5 (x - 1) (y + 1) MEDICINE else g5
      let g7 := if y < g_windowHeight - 1 then setCell g6 x (y + 1) MEDICINE else g6
      if x < g_windowWidth - 1 ∧ y < g_windowHeight - 1 then
        setCell g7 (x + 1) (y + 1) MEDICINE else g7
  else g

/-- A grid of `CANCER` cells around one `HEALTHY` cell at `(5, 5)`. -/
def cancerRing : Grid := fun a b => if a = 5 ∧ b = 5 then HEALTHY else CANCER

/-- A grid of `MEDICINE` cells around one `CANCER` cell on the last row `x = 1023`. -/
def medicineAround : Grid := fun a b => if a = 1023 ∧ b = 5 then CANCER else MEDICINE

/-- A `CANCER` cell at `(5, 5)` whose eight neighbours hold `MEDICINE`, in an
otherwise `HEALTHY` grid. -/
def cancerInMedicine : Grid := fun a b =>
  if a = 5 ∧ b = 5 then CANCER
  else if 4 ≤ a ∧ a ≤ 6 ∧ 4 ≤ b ∧ b ≤ 6 then MEDICINE
  else HEALTHY

/-- The grid in which every cell is `HEALTHY`. -/
def allHealthy : Grid := fun _ _ => HEALTHY

/-- One step of a medicine path: `b` is a Moore neighbour of `a` inside the grid
and `b` holds `MEDICINE`. -/
def MedStep (g : Grid) (a b : Nat × Nat) : Prop :=
  MooreAdj a b ∧ g b.1 b.2 = MEDICINE

/-- The cell `b` is `a` itself or the end of a path `a = c0, c1, ..., ck = b` of
successive in-bounds Moore-adjacent cells in which `c1, ..., ck` all hold
`MEDICINE`. -/
def MedReach (g : Grid) (a b : Nat × Nat) : Prop :=
  Relation.ReflTransGen (MedStep g) a b

/-- The number of grid cells holding `MEDICINE`. -/
def medCount (g : Grid) : Nat :=
  (((Finset.range g_windowWidth) ×ˢ (Finset.range g_windowHeight)).filter
    (fun p => g p.1 p.2 = MEDICINE)).card

/-- One guarded neighbour visit of `HealSurroundingMedicine`: recurse into the
neighbour `p` when it holds `MEDICINE`, otherwise leave the grid as it is. -/
def healIfMedicine (fuel : Nat) (g : Grid) (p : Nat × Nat) : Option Grid :=
  if g p.1 p.2 = MEDICINE then HealSurroundingMedicine fuel g p.1 p.2 else some g

/-- The loop invariant of the neighbour sweep: relative to the grid `g0` at the
start of the sweep, the cells set to `HEALTHY` so far are those on a medicine
path from a `MEDICINE` neighbour in `D`. -/
def SweepInv (g0 : Grid) (D : List (Nat × Nat)) (h : Grid) : Prop :=
  ∀ c : Nat × Nat,
    ((∃ m ∈ D, g0 m.1 m.2 = MEDICINE ∧ MedReach g0 m c) → h c.1 c.2 = HEALTHY) ∧
    (¬ (∃ m ∈ D, g0 m.1 m.2 = MEDICINE ∧ MedReach g0 m c) → h c.1 c.2 = g0 c.1 c.2)

/-- The postcondition of the heal started at `p` on grid `g`. -/
def HealPost (g : Grid) (p : Nat × Nat) (g1 : Grid) : Prop :=
  ∀ c : Nat × Nat, (MedReach g p c → g1 c.1 c.2 = HEALTHY) ∧
    (¬ MedReach g p c → g1 c.1 c.2 = g c.1 c.2)

/-- The statement proved by induction on the recursion bound. -/
def HealTotal (fuel : Nat) : Prop :=
  ∀ (g : Grid) (p : Nat × Nat), InBounds p → medCount (setCell g p.1 p.2 HEALTHY) < fuel →
    ∃ g1, HealSurroundingMedicine fuel g p.1 p.2 = some g1 ∧ HealPost g p g1

/-- A 5x5 block of `MEDICINE` on `[2,6] x [2,6]`, a `CANCER` cell at `(1, 1)`
diagonally adjacent to the corner `(2, 2)` of the block, and one separate
`MEDICINE` cell at `(10, 10)`; every other cell is `HEALTHY`. -/
def blockGrid : Grid := fun a b =>
  if a = 1 ∧ b = 1 then CANCER
  else if 2 ≤ a ∧ a ≤ 6 ∧ 2 ≤ b ∧ b ≤ 6 then MEDICINE
  else if a = 10 ∧ b = 10 then MEDICINE
  else HEALTHY

/-- The grid in which every cell is `MEDICINE`. -/
def allMedicine : Grid := fun _ _ => MEDICINE

/-- Source: `const int g_initialCancer = g_windowWidth * g_windowHeight * 0.26;`,
the product `204472.32` truncated to `int`. -/
def g_initialCancer : Nat := g_windowWidth * g_windowHeight * 26 / 100

/-- The seeding loop of `main`,
`for (int i = 0; i <= g_initialCancer; i++)`, started at counter `i` on grid `g`
after `k` calls of `rand()`; `rand n` is the value of the `n`-th call. The first
argument bounds the number of iterations; `none` means the bound was reached
before the loop ended. -/
def seedLoop (rand : Nat → Nat) : Nat → Nat → Int → Grid → Option Grid
  | 0, _, _, _ => none
  | fuel + 1, k, i, g =>
    if i ≤ (g_initialCancer : Int) then
      let x := rand k % 1024
      let y := rand (k + 1) % 768
      if g x y = CANCER then seedLoop rand fuel (k + 2) (i - 1 + 1) g
      else seedLoop rand fuel (k + 2) (i + 1) (setCell g x y CANCER)
    else some g

/-- The number of grid cells holding `CANCER`. -/
def cancerCount (g : Grid) : Nat :=
  (((Finset.range g_windowWidth) ×ˢ (Finset.range g_windowHeight)).filter
    (fun p => g p.1 p.2 = CANCER)).card

/-- Every cell holds `HEALTHY` or `CANCER`. -/
def OnlyHealthyOrCancer (g : Grid) : Prop := ∀ a b, g a b = HEALTHY ∨ g a b = CANCER

/-- A stream of `rand()` values whose successive pairs pick the grid cells in
row-major order. -/
def rowMajorRand (k : Nat) : Nat := if k % 2 = 0 then k / 2 / 768 else k / 2 % 768

/-- The grid whose first `n` cells in row-major order hold `CANCER`, the others
`HEALTHY`. -/
def firstCells (n : Nat) : Grid :=
  fun a b => if b < 768 ∧ a * 768 + b < n then CANCER else HEALTHY

/-- A grid of `HEALTHY` and `CANCER` cells: the `HEALTHY` cell `(5, 5)` has 7
`CANCER` neighbours, and the `HEALTHY` cell `(5, 6)` next to it has 5. -/
def divergeGrid : Grid := fun a b =>
  if (a = 4 ∧ (b = 4 ∨ b = 5 ∨ b = 6 ∨ b = 7)) ∨ (a = 5 ∧ b = 4) ∨
      (a = 6 ∧ (b = 4 ∨ b = 5 ∨ b = 6)) then CANCER
  else HEALTHY

/-- Every `CANCER` cell of `g` is a `CANCER` cell of `h`. -/
def CancerLe (g h : Grid) : Prop := ∀ a b, g a b = CANCER → h a b = CANCER

/-- Source: `void MouseClicks(int button, int state, int x, int y)` with its `int`
coordinates and every access to `g_quad` made the way the source makes it, by
plain array indexing. -/
def MouseClicksRaw (g : Grid) (button state : Int) (x y : Int) : Outcome Grid :=
  if button = GLUT_LEFT_BUTTON ∧ state = GLUT_DOWN then
    (rawRead g x y).bind fun c =>
    if c = CANCER then
      rawWrite g x y HEALTHY
    else
      (rawWrite g x y MEDICINE).bind fun g0 =>
      (if x > 0 ∧ y > 0 then rawWrite g0 (x - 1) (y - 1) MEDICINE
        else Outcome.ok g0).bind fun g1 =>
      (if y > 0 then rawWrite g1 x (y - 1) MEDICINE else Outcome.ok g1).bind fun g2 =>
      (if x < (g_windowWidth : Int) - 1 ∧ y > 0 then rawWrite g2 (x + 1) (y - 1) MEDICINE
        else Outcome.ok g2).bind fun g3 =>
      (if x > 0 then rawWrite g3 (x - 1) y MEDICINE else Outcome.ok g3).bind fun g4 =>
      (if x < (g_windowWidth : Int) - 1 then rawWrite g4 (x + 1) y MEDICINE
        else Outcome.ok g4).bind fun g5 =>
      (if x > 0 ∧ y < (g_windowHeight : Int) - 1 then rawWrite g5 (x - 1) (y + 1) MEDICINE
        else Outcome.ok g5).bind fun g6 =>
      (if y < (g_windowHeight : Int) - 1 then rawWrite g6 x (y + 1) MEDICINE
        else Outcome.ok g6).bind fun g7 =>
      (if x < (g_windowWidth : Int) - 1 ∧ y < (g_windowHeight : Int) - 1 then
        rawWrite g7 (x + 1) (y + 1) MEDICINE else Outcome.ok g7)
  else Outcome.ok g

end Version1

namespace Version2

/-- A `tbb::blocked_range2d<size_t>`: the half-open row range and column range. -/
structure BlockedRange2d where
  rowsBegin : Nat
  rowsEnd : Nat
  colsBegin : Nat
  colsEnd : Nat

/-- The range built in `Update`:
`blocked_range2d<size_t>(*startX, *endX, 1, *startY, *endY, 1)` with
`*startX = 0, *endX = g_windowWidth, *startY = 0, *endY = g_windowHeight`;
the first two arguments are the row bounds, the fourth and fifth the column bounds. -/
def fullRange : BlockedRange2d :=
  BlockedRange2d.mk 0 g_windowWidth 0 g_windowHeight

/-- The coordinates `(i, j)` for which `DoUpdate::operator()` calls
`UpdateState(i, j, g_quad[i][j])` on the sub-range `r`: `i` runs over `r.cols()`
in the outer loop and `j` over `r.rows()` in the inner loop (a TBB range has
`begin <= end`, so the loop test `i != end` stops where `i < end` does). -/
def DoUpdateCalls (r : BlockedRange2d) : List (Nat × Nat) :=
  (List.range' r.colsBegin (r.colsEnd - r.colsBegin)).flatMap fun i =>
    (List.range' r.rowsBegin (r.rowsEnd - r.rowsBegin)).map fun j => (i, j)

/-- A sub-range handed to `DoUpdate::operator()` lies inside the range given to
`parallel_for`. -/
def SubRange (r : BlockedRange2d) : Prop :=
  fullRange.rowsBegin ≤ r.rowsBegin ∧ r.rowsEnd ≤ fullRange.rowsEnd ∧
  fullRange.colsBegin ≤ r.colsBegin ∧ r.colsEnd ≤ fullRange.colsEnd

/-- The `UpdateState` calls of one `Update`, for the list of sub-ranges into
which `tbb::parallel_for` split the range. -/
def UpdateCalls (parts : List BlockedRange2d) : List (Nat × Nat) :=
  parts.flatMap DoUpdateCalls

end Version2

namespace Version4

/-- Source: `enum cell {CANCER, HEALTHY, MEDICINE}` and the kernel's `int CANCER = 0;`. -/
def CANCER : Int := 0

/-- Source: `enum cell {CANCER, HEALTHY, MEDICINE}` and the kernel's `int HEALTHY = 1;`. -/
def HEALTHY : Int := 1

/-- Source: `enum cell {CANCER, HEALTHY, MEDICINE}` and the kernel's `int MEDICINE = 2;`. -/
def MEDICINE : Int := 2

/-- A device buffer of `int` (`readQuad`, `writeQuad`), indexed by flat position. -/
abbrev Buffer := Nat → Int

/-- The assignment `writeQuad[i] = v`. -/
def setBuf (w : Buffer) (i : Nat) (v : Int) : Buffer :=
  fun j => if j = i then v else w j

/-- The value of `_numSurrounded` after the eight guarded neighbour checks of the
kernel `UpdateWithGPU`, with the kernel's `width = 1024` and `height = 768`. -/
def kernelNumSurrounded (readQuad : Buffer) (x y : Nat) (_before : Int) : Nat :=
  let width := 1024
  let height := 768
  let n0 : Nat := 0
  let n1 := if x > 0 ∧ y > 0 then
    (if readQuad ((x - 1) * height + (y - 1)) = _before then n0 + 1 else n0) else n0
  let n2 := if y > 0 then
    (if readQuad (x * height + (y - 1)) = _before then n1 + 1 else n1) else n1
  let n3 := if x < width - 1 ∧ y > 0 then
    (if readQuad ((x + 1) * height + (y - 1)) = _before then n2 + 1 else n2) else n2
  let n4 := if x > 0 then
    (if readQuad ((x - 1) * height + y) = _before then n3 + 1 else n3) else n3
  let n5 := if x < width - 1 then
    (if readQuad ((x + 1) * height + y) = _before then n4 + 1 else n4) else n4
  let n6 := if x > 0 ∧ y < height - 1 then
    (if readQuad ((x - 1) * height + (y + 1)) = _before then n5 + 1 else n5) else n5
  let n7 := if y < height - 1 then
    (if readQuad (x * height + (y + 1)) = _before then n6 + 1 else n6) else n6
  if x < width - 1 ∧ y < height - 1 then
    (if readQuad ((x + 1) * height + (y + 1)) = _before then n7 + 1 else n7) else n7

/-- The kernel `UpdateWithGPU(readQuad, writeQuad)` run by the lane with
`get_global_id(0) = i`; the result is the write buffer after the lane. -/
def UpdateWithGPU (readQuad writeQuad : Buffer) (i : Nat) : Buffer :=
  let height := 768
  let x := i / height
  let y := i % height
  if readQuad (x * height + y) = HEALTHY ∨ readQuad (x * height + y) = CANCER then
    let _before : Int :=
      if readQuad (x * height + y) = HEALTHY then CANCER
      else if readQuad (x * height + y) = CANCER then MEDICINE else 0
    let _after : Int :=
      if readQuad (x * height + y) = HEALTHY then CANCER
      else if readQuad (x * height + y) = CANCER then HEALTHY else 0
    let _numSurrounded := kernelNumSurrounded readQuad x y _before
    if _numSurrounded ≥ 6 then setBuf writeQuad (x * height + y) _after
    else writeQuad
  else writeQuad

/-- The number of lanes, `g_totalSize = g_windowWidth * g_windowHeight`. -/
def g_totalSize : Nat := g_windowWidth * g_windowHeight

/-- One tick `UpdateWithOpenCL()`: both device buffers are filled from `g_quad`
(cell `g_quad[x][y]` at flat position `x * g_windowHeight + y`), the kernel is run
once for each lane of `lanes` in that order, and `g_quad` is read back from the
write buffer. -/
def UpdateWithOpenCL (g : Grid) (lanes : List Nat) : Grid :=
  let readQuad : Buffer := fun i => g (i / g_windowHeight) (i % g_windowHeight)
  let writeQuad : Buffer := fun i => g (i / g_windowHeight) (i % g_windowHeight)
  let writeQuad := lanes.foldl (fun w i => UpdateWithGPU readQuad w i) writeQuad
  fun x y => writeQuad (x * g_windowHeight + y)

/-- The value the rule of the kernel assigns to a cell holding `s` with `nc`
neighbours holding `CANCER` and `nm` neighbours holding `MEDICINE`. -/
def ruleValue (s : Int) (nc nm : Nat) : Int :=
  if s = HEALTHY ∧ 6 ≤ nc then CANCER
  else if s = CANCER ∧ 6 ≤ nm then HEALTHY
  else s

/-- A `CANCER` cell at `(5, 5)` whose eight neighbours hold `MEDICINE`, in an
otherwise `HEALTHY` grid (kernel encoding). -/
def cancerInMedicine : Grid := fun a b =>
  if a = 5 ∧ b = 5 then CANCER
  else if 4 ≤ a ∧ a ≤ 6 ∧ 4 ≤ b ∧ b ≤ 6 then MEDICINE
  else HEALTHY

/-- The flat indices read by the eight guarded neighbour accesses of the kernel
`UpdateWithGPU` for the cell `(x, y)`, in source order. -/
def kernelReadIndices (x y : Nat) : List Nat :=
  let width := 1024
  let height := 768
  (if x > 0 ∧ y > 0 then [(x - 1) * height + (y - 1)] else []) ++
  (if y > 0 then [x * height + (y - 1)] else []) ++
  (if x < width - 1 ∧ y > 0 then [(x + 1) * height + (y - 1)] else []) ++
  (if x > 0 then [(x - 1) * height + y] else []) ++
  (if x < width - 1 then [(x + 1) * height + y] else []) ++
  (if x > 0 ∧ y < height - 1 then [(x - 1) * height + (y + 1)] else []) ++
  (if y < height - 1 then [x * height + (y + 1)] else []) ++
  (if x < width - 1 ∧ y < height - 1 then [(x + 1) * height + (y + 1)] else [])

/-- The correspondence of cell names between the two integer encodings:
`Version1` has `HEALTHY = 0, CANCER = 1, MEDICINE = 2`, the `Version4` enum and
kernel have `CANCER = 0, HEALTHY = 1, MEDICINE = 2`. -/
def encodeV4 (s : Int) : Int :=
  if s = Version1.HEALTHY then HEALTHY
  else if s = Version1.CANCER then CANCER
  else if s = Version1.MEDICINE then MEDICINE
  else s

/-- The device buffer holding the `Version1` grid `g` in the kernel's encoding,
cell `g_quad[x][y]` at flat position `x * g_windowHeight + y`. -/
def hostToDevice (g : Grid) : Buffer :=
  fun i => encodeV4 (g (i / g_windowHeight) (i % g_windowHeight))

/-- The value of `GLUT_LEFT_BUTTON` in `GLUT/glut.h`. -/
def GLUT_LEFT_BUTTON : Int := 0

/-- The value of `GLUT_DOWN` in `GLUT/glut.h`. -/
def GLUT_DOWN : Int := 0

/-- Source: `void MouseClicks(int button, int state, int x, int y)` of the
kernel-offload variant, with the values of `enum cell`. -/
def MouseClicks (g : Grid) (button state : Int) (x y : Nat) : Grid :=
  if button = GLUT_LEFT_BUTTON ∧ state = GLUT_DOWN then
    if g x y = CANCER then
      setCell g x y HEALTHY
    else
      let g0 := setCell g x y MEDICINE
      let g1 := if x > 0 ∧ y > 0 then setCell g0 (x - 1) (y - 1) MEDICINE else g0
      let g2 := if y > 0 then setCell g1 x (y - 1) MEDICINE else g1
      let g3 := if x < g_windowWidth - 1 ∧ y > 0 then setCell g2 (x + 1) (y - 1) MEDICINE else g2
      let g4 := if x > 0 then setCell g3 (x - 1) y MEDICINE else g3
      let g5 := if x < g_windowWidth - 1 then setCell g4 (x + 1) y MEDICINE else g4
      let g6 := if x > 0 ∧ y < g_windowHeight - 1 then setCell g5 (x - 1) (y + 1) MEDICINE else g5
      let g7 := if y < g_windowHeight - 1 then setCell g6 x (y + 1) MEDICINE else g6
      if x < g_windowWidth - 1 ∧ y < g_windowHeight - 1 then
        setCell g7 (x + 1) (y + 1) MEDICINE else g7
  else g

/-- What changes `g_quad` in the kernel-offload variant: a tick
`UpdateWithOpenCL()` with its lanes in some order, or a mouse event handled by
`MouseClicks`. -/
inductive Event where
  | tick (lanes : List Nat)
  | click (button state : Int) (x y : Nat)

/-- The grid after one event. -/
def applyEvent (g : Grid) : Event → Grid
  | Event.tick lanes => UpdateWithOpenCL g lanes
  | Event.click button state x y => MouseClicks g button state x y

/-- The grid after a sequence of events, applied in order. -/
def runEvents (g : Grid) (events : List Event) : Grid :=
  events.foldl applyEvent g

/-- A tick runs every lane `0 .. g_totalSize - 1` once, and a click has in-bounds
coordinates. -/
def ValidEvent : Event → Prop
  | Event.tick lanes => lanes.Perm (List.range g_totalSize)
  | Event.click _ _ x y => x < g_windowWidth ∧ y < g_windowHeight

end Version4

/-! ## The guarded neighbour accesses -/

theorem ite_incr (c : Prop) [Decidable c] (n : Nat) :
    (if c then n + 1 else n) = n + oneIf c := by
  unfold oneIf; split <;> rfl

theorem mem_guardedNbrs (x y : Nat) (hx : x < g_windowWidth) (hy : y < g_windowHeight)
    (p : Nat × Nat) : p ∈ guardedNbrs x y ↔ MooreAdj (x, y) p := by
  obtain ⟨a, b⟩ := p
  simp only [guardedNbrs, MooreAdj, InBounds, g_windowWidth, g_windowHeight] at *
  simp only [List.mem_append, List.mem_ite_nil_right, List.mem_singleton, Prod.mk.injEq, ne_eq]
  constructor
  · intro h
    rcases h with ((((((h | h) | h) | h) | h) | h) | h) | h <;> omega
  · rintro ⟨-, ⟨ha, hb⟩, hne, h1, h2, h3, h4⟩
    have hxa : (a + 1 = x) ∨ a = x ∨ a = x + 1 := by omega
    have hyb : (b + 1 = y) ∨ b = y ∨ b = y + 1 := by omega
    rcases hxa with hxa | hxa | hxa <;> rcases hyb with hyb | hyb | hyb <;> subst hxa <;> subst hyb
      <;> simp <;> omega

theorem nodup_guardedNbrs (x y : Nat) : (guardedNbrs x y).Nodup := by
  by_cases h1 : x > 0 <;> by_cases h2 : y > 0 <;> by_cases h3 : x < g_windowWidth - 1 <;>
    by_cases h4 : y < g_windowHeight - 1 <;>
    simp [guardedNbrs, h1, h2, h3, h4] <;> omega

theorem mem_mooreNbrs (x y : Nat) (hx : x < g_windowWidth) (hy : y < g_windowHeight)
    (p : Nat × Nat) : p ∈ mooreNbrs x y ↔ MooreAdj (x, y) p := by
  obtain ⟨a, b⟩ := p
  simp only [mooreNbrs, MooreAdj, InBounds, g_windowWidth, g_windowHeight, Finset.mem_filter,
    Finset.mem_product, Finset.mem_Icc, ne_eq, Prod.mk.injEq] at *
  omega

theorem toFinset_guardedNbrs (x y : Nat) (hx : x < g_windowWidth) (hy : y < g_windowHeight) :
    (guardedNbrs x y).toFinset = mooreNbrs x y := by
  ext p
  rw [List.mem_toFinset, mem_guardedNbrs x y hx hy, mem_mooreNbrs x y hx hy]

theorem card_mooreNbrs (x y : Nat) (hx : x < g_windowWidth) (hy : y < g_windowHeight) :
    (mooreNbrs x y).card = (guardedNbrs x y).length := by
  rw [← toFinset_guardedNbrs x y hx hy, List.toFinset_card_of_nodup (nodup_guardedNbrs x y)]

theorem countP_guardedNbrs (g : Grid) (x y : Nat) (hx : x < g_windowWidth)
    (hy : y < g_windowHeight) (v : Int) :
    (guardedNbrs x y).countP (fun p => g p.1 p.2 = v) = mooreCount g x y v := by
  unfold mooreCount
  rw [← toFinset_guardedNbrs x y hx hy, List.countP_eq_length_filter,
    ← List.toFinset_card_of_nodup ((nodup_guardedNbrs x y).filter _)]
  congr 1
  ext p
  simp

theorem length_guardedNbrs_interior (x y : Nat) (hx0 : 0 < x) (hx1 : x < g_windowWidth - 1)
    (hy0 : 0 < y) (hy1 : y < g_windowHeight - 1) : (guardedNbrs x y).length = 8 := by
  simp [guardedNbrs, hx0, hx1, hy0, hy1]

theorem length_guardedNbrs_boundary (x y : Nat)
    (hb : x = 0 ∨ x = g_windowWidth - 1 ∨ y = 0 ∨ y = g_windowHeight - 1) :
    (guardedNbrs x y).length ≤ 5 := by
  by_cases h1 : x > 0 <;> by_cases h2 : y > 0 <;> by_cases h3 : x < g_windowWidth - 1 <;>
    by_cases h4 : y < g_windowHeight - 1 <;>
    first
      | (simp [guardedNbrs, h1, h2, h3, h4]; done)
      | (simp [guardedNbrs, h1, h2, h3, h4]; omega)

theorem callCount_append (l1 l2 : List (Nat × Nat)) (p : Nat × Nat) :
    callCount (l1 ++ l2) p = callCount l1 p + callCount l2 p := by
  simp only [callCount, List.countP_append]

theorem callCount_of_nodup (l : List (Nat × Nat)) (p : Nat × Nat) (hl : l.Nodup) :
    callCount l p = if p ∈ l then 1 else 0 := by
  have h : callCount l p = @List.count _ instBEqOfDecidableEq p l := rfl
  rw [h, List.count_eq_of_nodup hl]
  by_cases hm : p ∈ l <;> simp only [hm, if_true, if_false]

namespace Version1

theorem numSurrounded_eq_countP (g : Grid) (x y : Nat) (v : Int) :
    numSurrounded g x y v = (guardedNbrs x y).countP (fun p => g p.1 p.2 = v) := by
  simp only [numSurrounded, ite_incr]
  by_cases h1 : x > 0 <;> by_cases h2 : y > 0 <;> by_cases h3 : x < g_windowWidth - 1 <;>
    by_cases h4 : y < g_windowHeight - 1 <;>
    simp [guardedNbrs, h1, h2, h3, h4, List.countP_cons, oneIf] <;> omega

theorem numSurrounded_eq_mooreCount (g : Grid) (x y : Nat) (hx : x < g_windowWidth)
    (hy : y < g_windowHeight) (v : Int) : numSurrounded g x y v = mooreCount g x y v := by
  rw [numSurrounded_eq_countP, countP_guardedNbrs g x y hx hy]

theorem healthy_ne_cancer : ¬ (HEALTHY = CANCER) := by decide

theorem cancer_ne_healthy : ¬ (CANCER = HEALTHY) := by decide

theorem medicine_ne_healthy : ¬ (MEDICINE = HEALTHY) := by decide

theorem medicine_ne_cancer : ¬ (MEDICINE = CANCER) := by decide

/-! ## The recursive heal -/

theorem medCount_mono (h g : Grid)
    (hm : ∀ c : Nat × Nat, h c.1 c.2 = MEDICINE → g c.1 c.2 = MEDICINE) :
    medCount h ≤ medCount g :=
  Finset.card_le_card (Finset.monotone_filter_right _ hm)

theorem medCount_setCell_lt (h : Grid) (n : Nat × Nat) (hn : InBounds n)
    (hmed : h n.1 n.2 = MEDICINE) :
    medCount (setCell h n.1 n.2 HEALTHY) < medCount h := by
  have hle : ∀ c : Nat × Nat,
      setCell h n.1 n.2 HEALTHY c.1 c.2 = MEDICINE → h c.1 c.2 = MEDICINE := by
    intro c hc
    simp only [setCell] at hc
    split at hc
    · exact absurd hc.symm medicine_ne_healthy
    · exact hc
  have hsub : ((Finset.range g_windowWidth) ×ˢ (Finset.range g_windowHeight)).filter
        (fun p => setCell h n.1 n.2 HEALTHY p.1 p.2 = MEDICINE) ⊆
      ((Finset.range g_windowWidth) ×ˢ (Finset.range g_windowHeight)).filter
        (fun p => h p.1 p.2 = MEDICINE) := Finset.monotone_filter_right _ hle
  refine Finset.card_lt_card ((Finset.ssubset_iff_of_subset hsub).mpr ⟨n, ?_, ?_⟩)
  · rw [Finset.mem_filter, Finset.mem_product, Finset.mem_range, Finset.mem_range]
    exact ⟨hn, hmed⟩
  · rw [Finset.mem_filter]
    simp [setCell, Ne.symm medicine_ne_healthy]


theorem heal_succ_eq_foldlM (fuel : Nat) (g : Grid) (x y : Nat) :
    HealSurroundingMedicine (fuel + 1) g x y =
      (guardedNbrs x y).foldlM (healIfMedicine fuel) (setCell g x y HEALTHY) := by
  by_cases h1 : x > 0 <;> by_cases h2 : y > 0 <;> by_cases h3 : x < g_windowWidth - 1 <;>
    by_cases h4 : y < g_windowHeight - 1 <;>
    simp [HealSurroundingMedicine, guardedNbrs, h1, h2, h3, h4, healIfMedicine, List.foldlM]

theorem medReach_mono (h g : Grid)
    (hm : ∀ c : Nat × Nat, h c.1 c.2 = MEDICINE → g c.1 c.2 = MEDICINE) (a c : Nat × Nat)
    (hr : MedReach h a c) : MedReach g a c :=
  Relation.ReflTransGen.mono (fun _ b hs => ⟨hs.1, hm b hs.2⟩) hr

theorem medReach_medicine (g : Grid) (a c : Nat × Nat) (ha : g a.1 a.2 = MEDICINE)
    (hr : MedReach g a c) : g c.1 c.2 = MEDICINE := by
  rcases Relation.ReflTransGen.cases_tail hr with h | ⟨b, -, hs⟩
  · rw [h]; exact ha
  · exact hs.2

theorem medReach_split (g : Grid) (p c : Nat × Nat) :
    MedReach g p c ↔ c = p ∨ ∃ n, MooreAdj p n ∧
      setCell g p.1 p.2 HEALTHY n.1 n.2 = MEDICINE ∧
      MedReach (setCell g p.1 p.2 HEALTHY) n c := by
  have hle : ∀ c : Nat × Nat,
      setCell g p.1 p.2 HEALTHY c.1 c.2 = MEDICINE → g c.1 c.2 = MEDICINE := by
    intro c hc
    simp only [setCell] at hc
    split at hc
    · exact absurd hc.symm medicine_ne_healthy
    · exact hc
  constructor
  · intro hr
    induction hr with
    | refl => exact Or.inl rfl
    | @tail b c _ hs ih =>
      by_cases hcp : c = p
      · exact Or.inl hcp
      · right
        have hc0 : setCell g p.1 p.2 HEALTHY c.1 c.2 = MEDICINE := by
          have : ¬ (c.1 = p.1 ∧ c.2 = p.2) := fun h => hcp (Prod.ext h.1 h.2)
          simp only [setCell, this, if_false]
          exact hs.2
        rcases ih with hb | ⟨n, hadj, hn, hr⟩
        · subst hb
          exact ⟨c, hs.1, hc0, Relation.ReflTransGen.refl⟩
        · exact ⟨n, hadj, hn, Relation.ReflTransGen.tail hr ⟨hs.1, hc0⟩⟩
  · rintro (h | ⟨n, hadj, hn, hr⟩)
    · rw [h]; exact Relation.ReflTransGen.refl
    · exact Relation.ReflTransGen.head ⟨hadj, hle n hn⟩ (medReach_mono _ g hle n c hr)

/-- Under the sweep invariant, a medicine path in `g0` from `n` either survives in
the current grid or ends in a cell already reached from a processed neighbour. -/
theorem sweep_reach_cases (g0 h : Grid) (D : List (Nat × Nat)) (hinv : SweepInv g0 D h)
    (n c : Nat × Nat) (hr : MedReach g0 n c) :
    MedReach h n c ∨ ∃ m ∈ D, g0 m.1 m.2 = MEDICINE ∧ MedReach g0 m c := by
  induction hr with
  | refl => exact Or.inl Relation.ReflTransGen.refl
  | @tail b c _ hs ih =>
    rcases ih with hb | ⟨m, hm, hmed, hr⟩
    · by_cases hc : h c.1 c.2 = MEDICINE
      · exact Or.inl (Relation.ReflTransGen.tail hb ⟨hs.1, hc⟩)
      · right
        by_contra hne
        exact hc (((hinv c).2 hne).trans hs.2)
    · exact Or.inr ⟨m, hm, hmed, Relation.ReflTransGen.tail hr hs⟩

theorem sweepInv_medicine (g0 h : Grid) (D : List (Nat × Nat)) (hinv : SweepInv g0 D h)
    (c : Nat × Nat) (hc : h c.1 c.2 = MEDICINE) : g0 c.1 c.2 = MEDICINE := by
  by_cases hex : ∃ m ∈ D, g0 m.1 m.2 = MEDICINE ∧ MedReach g0 m c
  · exact absurd (((hinv c).1 hex).symm.trans hc).symm medicine_ne_healthy
  · rw [← (hinv c).2 hex]; exact hc

theorem sweep_step (fuel : Nat) (IH : HealTotal fuel) (g0 : Grid) (hfuel : medCount g0 ≤ fuel)
    (D : List (Nat × Nat)) (h : Grid) (n : Nat × Nat) (hn : InBounds n)
    (hinv : SweepInv g0 D h) :
    ∃ h1, healIfMedicine fuel h n = some h1 ∧ SweepInv g0 (D ++ [n]) h1 := by
  by_cases hmed : h n.1 n.2 = MEDICINE
  · have hcnt : medCount (setCell h n.1 n.2 HEALTHY) < fuel := by
      have h1 := medCount_setCell_lt h n hn hmed
      have h2 := medCount_mono h g0 (sweepInv_medicine g0 h D hinv)
      omega
    obtain ⟨h1, hrun, hpost⟩ := IH h n hn hcnt
    refine ⟨h1, by simp only [healIfMedicine, hmed, if_true, hrun], ?_⟩
    have hn0 : g0 n.1 n.2 = MEDICINE := sweepInv_medicine g0 h D hinv n hmed
    have hD : ∀ c : Nat × Nat, (∃ m ∈ D, g0 m.1 m.2 = MEDICINE ∧ MedReach g0 m c) →
        h1 c.1 c.2 = HEALTHY := by
      intro c hex
      by_cases hr : MedReach h n c
      · exact (hpost c).1 hr
      · rw [(hpost c).2 hr]; exact (hinv c).1 hex
    intro c
    constructor
    · rintro ⟨m, hm, hm0, hr⟩
      rcases List.mem_append.mp hm with hmD | hmn
      · exact hD c ⟨m, hmD, hm0, hr⟩
      · rw [List.mem_singleton] at hmn
        subst hmn
        rcases sweep_reach_cases g0 h D hinv m c hr with hr1 | hex
        · exact (hpost c).1 hr1
        · exact hD c hex
    · intro hne
      have hneD : ¬ ∃ m ∈ D, g0 m.1 m.2 = MEDICINE ∧ MedReach g0 m c := by
        rintro ⟨m, hm, hm0, hr⟩
        exact hne ⟨m, List.mem_append.mpr (Or.inl hm), hm0, hr⟩
      have hnr : ¬ MedReach h n c := by
        intro hr
        exact hne ⟨n, List.mem_append.mpr (Or.inr (List.mem_singleton.mpr rfl)), hn0,
          medReach_mono h g0 (sweepInv_medicine g0 h D hinv) n c hr⟩
      rw [(hpost c).2 hnr]
      exact (hinv c).2 hneD
  · refine ⟨h, by simp only [healIfMedicine, hmed, if_false], ?_⟩
    intro c
    constructor
    · rintro ⟨m, hm, hm0, hr⟩
      rcases List.mem_append.mp hm with hmD | hmn
      · exact (hinv c).1 ⟨m, hmD, hm0, hr⟩
      · rw [List.mem_singleton] at hmn
        subst hmn
        have hex : ∃ k ∈ D, g0 k.1 k.2 = MEDICINE ∧ MedReach g0 k m := by
          by_contra hne
          exact hmed (((hinv m).2 hne).trans hm0)
        obtain ⟨k, hk, hk0, hkr⟩ := hex
        exact (hinv c).1 ⟨k, hk, hk0, Relation.ReflTransGen.trans hkr hr⟩
    · intro hne
      refine (hinv c).2 ?_
      rintro ⟨m, hm, hm0, hr⟩
      exact hne ⟨m, List.mem_append.mpr (Or.inl hm), hm0, hr⟩

theorem sweep_spec (fuel : Nat) (IH : HealTotal fuel) (g0 : Grid) (hfuel : medCount g0 ≤ fuel)
    (L : List (Nat × Nat)) : ∀ (D : List (Nat × Nat)) (h : Grid), (∀ n ∈ L, InBounds n) →
      SweepInv g0 D h →
      ∃ h1, L.foldlM (healIfMedicine fuel) h = some h1 ∧ SweepInv g0 (D ++ L) h1 := by
  induction L with
  | nil =>
    intro D h _ hinv
    exact ⟨h, rfl, by simpa using hinv⟩
  | cons n L ih =>
    intro D h hL hinv
    obtain ⟨h1, hrun, hinv1⟩ :=
      sweep_step fuel IH g0 hfuel D h n (hL n (List.mem_cons_self n L)) hinv
    obtain ⟨h2, hrun2, hinv2⟩ :=
      ih (D ++ [n]) h1 (fun k hk => hL k (List.mem_cons_of_mem n hk)) hinv1
    refine ⟨h2, ?_, by simpa using hinv2⟩
    simp only [List.foldlM, hrun, Option.bind_eq_bind, Option.some_bind]
    exact hrun2

theorem healTotal (fuel : Nat) : HealTotal fuel := by
  induction fuel with
  | zero =>
    intro g p _ h
    exact absurd h (Nat.not_lt_zero _)
  | succ fuel IH =>
    intro g p hp hcnt
    obtain ⟨h1, hrun, hinv⟩ := sweep_spec fuel IH (setCell g p.1 p.2 HEALTHY)
      (Nat.lt_succ_iff.mp hcnt) (guardedNbrs p.1 p.2) [] (setCell g p.1 p.2 HEALTHY)
      (fun n hn => ((mem_guardedNbrs p.1 p.2 hp.1 hp.2 n).mp hn).2.1)
      (fun c => ⟨fun ⟨m, hm, _⟩ => absurd hm (List.not_mem_nil m), fun _ => rfl⟩)
    refine ⟨h1, by rw [heal_succ_eq_foldlM]; exact hrun, ?_⟩
    rw [List.nil_append] at hinv
    intro c
    have hiff := medReach_split g p c
    constructor
    · intro hr
      by_cases hex : ∃ m ∈ guardedNbrs p.1 p.2, setCell g p.1 p.2 HEALTHY m.1 m.2 = MEDICINE ∧
          MedReach (setCell g p.1 p.2 HEALTHY) m c
      · exact (hinv c).1 hex
      · rw [(hinv c).2 hex]
        rcases hiff.mp hr with hc | ⟨n, hadj, hn0, hnr⟩
        · subst hc
          simp [setCell]
        · exact absurd ⟨n, (mem_guardedNbrs p.1 p.2 hp.1 hp.2 n).mpr hadj, hn0, hnr⟩ hex
    · intro hnr
      have hex : ¬ ∃ m ∈ guardedNbrs p.1 p.2, setCell g p.1 p.2 HEALTHY m.1 m.2 = MEDICINE ∧
          MedReach (setCell g p.1 p.2 HEALTHY) m c := by
        rintro ⟨m, hm, hm0, hr⟩
        exact hnr (hiff.mpr (Or.inr ⟨m, (mem_guardedNbrs p.1 p.2 hp.1 hp.2 m).mp hm, hm0, hr⟩))
      rw [(hinv c).2 hex]
      have hcp : ¬ (c.1 = p.1 ∧ c.2 = p.2) := by
        intro h
        exact hnr (hiff.mpr (Or.inl (Prod.ext h.1 h.2)))
      simp only [setCell, hcp, if_false]

theorem healPost_unique (g : Grid) (p : Nat × Nat) (g1 g2 : Grid)
    (h1 : HealPost g p g1) (h2 : HealPost g p g2) : g1 = g2 := by
  funext a b
  by_cases hr : MedReach g p (a, b)
  · exact ((h1 (a, b)).1 hr).trans ((h2 (a, b)).1 hr).symm
  · exact ((h1 (a, b)).2 hr).trans ((h2 (a, b)).2 hr).symm

theorem medCount_setCell_le (g : Grid) (x y : Nat) :
    medCount (setCell g x y HEALTHY) ≤ medCount g := by
  apply medCount_mono
  intro c hc
  simp only [setCell] at hc
  split at hc
  · exact absurd hc.symm medicine_ne_healthy
  · exact hc

/-- The heal started at an in-bounds cell returns a grid for every recursion
bound above the number of `MEDICINE` cells, the same grid for each such bound. -/
theorem heal_returns (g : Grid) (x y : Nat) (hx : x < g_windowWidth) (hy : y < g_windowHeight) :
    ∃ g1, (∀ fuel, medCount g < fuel → HealSurroundingMedicine fuel g x y = some g1) ∧
      HealPost g (x, y) g1 := by
  have hle := medCount_setCell_le g x y
  obtain ⟨g1, _, hpost⟩ := healTotal (medCount g + 1) g (x, y) ⟨hx, hy⟩ (by simp only; omega)
  refine ⟨g1, ?_, hpost⟩
  intro fuel hf
  obtain ⟨g2, hrun2, hpost2⟩ := healTotal fuel g (x, y) ⟨hx, hy⟩ (by simp only; omega)
  rw [hrun2, healPost_unique g (x, y) g2 g1 hpost2 hpost]

/-- C2. Postcondition of `HealSurroundingMedicine`: started on an in-bounds
`CANCER` cell `(x, y)`, the heal returns one grid `g1` for every recursion bound
above the number of `MEDICINE` cells; a cell is `HEALTHY` in `g1` and differs
from the input exactly when it is `(x, y)` or the end of a path from `(x, y)` of
successive in-bounds Moore-adjacent `MEDICINE` cells, and every other cell keeps
the value it had. -/
theorem heal_postcondition (g : Grid) (x y : Nat) (hx : x < g_windowWidth)
    (hy : y < g_windowHeight) (hc : g x y = CANCER) :
    ∃ g1, (∀ fuel, medCount g < fuel → HealSurroundingMedicine fuel g x y = some g1) ∧
      ∀ a b, (MedReach g (x, y) (a, b) → g1 a b = HEALTHY ∧ g1 a b ≠ g a b) ∧
        (¬ MedReach g (x, y) (a, b) → g1 a b = g a b) := by
  obtain ⟨g1, hrun, hpost⟩ := heal_returns g x y hx hy
  refine ⟨g1, hrun, fun a b => ⟨fun hr => ?_, (hpost (a, b)).2⟩⟩
  have h1 : g1 a b = HEALTHY := (hpost (a, b)).1 hr
  refine ⟨h1, ?_⟩
  rw [h1]
  rcases Relation.ReflTransGen.cases_tail hr with h | ⟨c, -, hs⟩
  · rw [Prod.mk.injEq] at h
    rw [h.1, h.2, hc]
    exact healthy_ne_cancer
  · rw [show g a b = MEDICINE from hs.2]
    exact Ne.symm medicine_ne_healthy

theorem blockGrid_reach_row (a : Nat) (h2 : 2 ≤ a) (h6 : a ≤ 6) :
    MedReach blockGrid (1, 1) (a, 2) := by
  induction a, h2 using Nat.le_induction with
  | base =>
    exact Relation.ReflTransGen.single ⟨by decide, by decide⟩
  | succ a h2 ih =>
    refine Relation.ReflTransGen.tail (ih (by omega)) ⟨?_, ?_⟩
    · simp only [MooreAdj, InBounds, g_windowWidth, g_windowHeight, ne_eq, Prod.mk.injEq]
      omega
    · have h3 : ¬ (a + 1 = 1) := by omega
      have h4 : 2 ≤ a + 1 ∧ a + 1 ≤ 6 := by omega
      simp [blockGrid, h3, h4]

theorem blockGrid_reach (a b : Nat) (ha2 : 2 ≤ a) (ha6 : a ≤ 6) (hb2 : 2 ≤ b) (hb6 : b ≤ 6) :
    MedReach blockGrid (1, 1) (a, b) := by
  induction b, hb2 using Nat.le_induction with
  | base => exact blockGrid_reach_row a ha2 ha6
  | succ b hb2 ih =>
    refine Relation.ReflTransGen.tail (ih (by omega)) ⟨?_, ?_⟩
    · simp only [MooreAdj, InBounds, g_windowWidth, g_windowHeight, ne_eq, Prod.mk.injEq]
      omega
    · have h3 : ¬ (a = 1) := by omega
      have h4 : 2 ≤ a ∧ a ≤ 6 ∧ 2 ≤ b + 1 ∧ b + 1 ≤ 6 := by omega
      simp [blockGrid, h3, h4]

theorem blockGrid_reach_bound (c : Nat × Nat) (hr : MedReach blockGrid (1, 1) c) :
    c.1 ≤ 6 ∧ c.2 ≤ 6 := by
  induction hr with
  | refl => decide
  | @tail b c _ hs ih =>
    obtain ⟨hadj, hmed⟩ := hs
    simp only [MooreAdj, InBounds] at hadj
    simp only [blockGrid] at hmed
    split at hmed
    · omega
    · split at hmed
      · omega
      · split at hmed
        · omega
        · exact absurd hmed.symm medicine_ne_healthy

theorem medCount_le_of_subset (g : Grid) (S : Finset (Nat × Nat))
    (h : ∀ c : Nat × Nat, g c.1 c.2 = MEDICINE → c ∈ S) : medCount g ≤ S.card := by
  refine Finset.card_le_card (Finset.subset_iff.mpr ?_)
  intro c
  rw [Finset.mem_filter]
  rintro ⟨-, hmed⟩
  exact h c hmed

theorem medCount_blockGrid : medCount blockGrid ≤ 26 := by
  have h := medCount_le_of_subset blockGrid (insert (10, 10) ((Finset.Icc 2 6) ×ˢ (Finset.Icc 2 6)))
    (fun c hmed => by
      simp only [Finset.mem_insert, Finset.mem_product, Finset.mem_Icc]
      simp only [blockGrid] at hmed
      split at hmed
      · exact absurd hmed (Ne.symm medicine_ne_cancer)
      · split at hmed
        · right; omega
        · split at hmed
          · left; exact Prod.ext (by simp only; omega) (by simp only; omega)
          · exact absurd hmed.symm medicine_ne_healthy)
  calc medCount blockGrid ≤ (insert (10, 10) ((Finset.Icc 2 6) ×ˢ (Finset.Icc 2 6))).card := h
    _ ≤ ((Finset.Icc 2 6) ×ˢ (Finset.Icc 2 6)).card + 1 := Finset.card_insert_le _ _
    _ = 26 := by simp

theorem heal_postcondition_witness :
    ∃ g1, HealSurroundingMedicine 27 blockGrid 1 1 = some g1 ∧
      g1 1 1 = HEALTHY ∧
      (∀ a b, 2 ≤ a → a ≤ 6 → 2 ≤ b → b ≤ 6 → g1 a b = HEALTHY) ∧
      g1 10 10 = MEDICINE := by
  obtain ⟨g1, hrun, hpost⟩ := heal_postcondition blockGrid 1 1 (by decide) (by decide)
    (by decide)
  refine ⟨g1, hrun 27 (Nat.lt_succ_of_le medCount_blockGrid), ?_, ?_, ?_⟩
  · exact ((hpost 1 1).1 Relation.ReflTransGen.refl).1
  · intro a b ha2 ha6 hb2 hb6
    exact ((hpost a b).1 (blockGrid_reach a b ha2 ha6 hb2 hb6)).1
  · rw [(hpost 10 10).2 (fun hr => absurd (blockGrid_reach_bound (10, 10) hr).1 (by decide))]
    decide

/-! ## The rule evaluator -/

/-- C1. Healthy rule of `UpdateState`: for an interior cell holding `HEALTHY`,
the call returns a grid in which the cell is `CANCER` exactly when at least 6 of
its 8 Moore neighbours are `CANCER`, and no other cell differs from the input. -/
theorem updateState_healthy_rule (fuel : Nat) (g : Grid) (x y : Nat)
    (hx0 : 0 < x) (hx1 : x < g_windowWidth - 1) (hy0 : 0 < y) (hy1 : y < g_windowHeight - 1)
    (hs : g x y = HEALTHY) :
    (mooreNbrs x y).card = 8 ∧
    ∃ g1, UpdateState fuel g x y HEALTHY = some g1 ∧
      (g1 x y = CANCER ↔ 6 ≤ mooreCount g x y CANCER) ∧
      ∀ a b, (a, b) ≠ (x, y) → g1 a b = g a b := by
  have hx : x < g_windowWidth := by omega
  have hy : y < g_windowHeight := by omega
  refine ⟨by rw [card_mooreNbrs x y hx hy, length_guardedNbrs_interior x y hx0 hx1 hy0 hy1], ?_⟩
  by_cases hc : 6 ≤ mooreCount g x y CANCER
  · refine ⟨setCell g x y CANCER, ?_, ?_, ?_⟩
    · simp only [UpdateState, true_or, if_true, numSurrounded_eq_mooreCount g x y hx hy,
        ge_iff_le, hc, healthy_ne_cancer, if_false]
    · simp [setCell, hc]
    · intro a b hab
      simp only [ne_eq, Prod.mk.injEq] at hab
      simp [setCell, hab]
  · refine ⟨g, ?_, ?_, ?_⟩
    · simp only [UpdateState, true_or, if_true, numSurrounded_eq_mooreCount g x y hx hy,
        ge_iff_le, hc, if_false]
    · simp only [hc, hs, healthy_ne_cancer]
    · intro a b _
      rfl

theorem updateState_healthy_rule_witness :
    (mooreNbrs 5 5).card = 8 ∧
    ∃ g1, UpdateState 0 cancerRing 5 5 HEALTHY = some g1 ∧
      (g1 5 5 = CANCER ↔ 6 ≤ mooreCount cancerRing 5 5 CANCER) ∧
      ∀ a b, (a, b) ≠ (5, 5) → g1 a b = cancerRing a b :=
  updateState_healthy_rule 0 cancerRing 5 5 (by decide) (by decide) (by decide) (by decide)
    (by simp [cancerRing])

/-- C4. Boundary cells never transition: for a cell on the first or last row or
column, `UpdateState` called with the cell's own state returns the input grid,
whatever the states of the cell and of its neighbours. -/
theorem updateState_boundary_unchanged (fuel : Nat) (g : Grid) (x y : Nat)
    (hb : x = 0 ∨ x = g_windowWidth - 1 ∨ y = 0 ∨ y = g_windowHeight - 1) :
    UpdateState fuel g x y (g x y) = some g := by
  have hlt : ∀ v, ¬ numSurrounded g x y v ≥ 6 := by
    intro v
    have h1 := length_guardedNbrs_boundary x y hb
    have h2 : numSurrounded g x y v ≤ (guardedNbrs x y).length := by
      rw [numSurrounded_eq_countP]
      exact List.countP_le_length _
    omega
  unfold UpdateState
  split
  · simp only [hlt, if_false]
  · rfl

theorem updateState_boundary_unchanged_witness :
    (1023 = 0 ∨ 1023 = g_windowWidth - 1 ∨ 5 = 0 ∨ 5 = g_windowHeight - 1) ∧
    UpdateState 0 medicineAround 1023 5 (medicineAround 1023 5) = some medicineAround :=
  ⟨by decide, updateState_boundary_unchanged 0 medicineAround 1023 5 (by decide)⟩

/-- C3. Cancer rule of `UpdateState`: for an in-bounds cell holding `CANCER`, with
at least 6 `MEDICINE` cells among its in-bounds Moore neighbours the call is the
call of `HealSurroundingMedicine` at the cell (which returns a grid once the
recursion bound exceeds the number of `MEDICINE` cells); with fewer than 6 the
grid is returned unchanged. -/
theorem updateState_cancer_rule (fuel : Nat) (g : Grid) (x y : Nat) (hx : x < g_windowWidth)
    (hy : y < g_windowHeight) (hs : g x y = CANCER) :
    (6 ≤ mooreCount g x y MEDICINE →
      UpdateState fuel g x y (g x y) = HealSurroundingMedicine fuel g x y ∧
      (medCount g < fuel → ∃ g1, HealSurroundingMedicine fuel g x y = some g1)) ∧
    (mooreCount g x y MEDICINE < 6 → UpdateState fuel g x y (g x y) = some g) := by
  rw [hs]
  constructor
  · intro hc
    constructor
    · simp only [UpdateState, or_true, if_true, cancer_ne_healthy, if_false,
        numSurrounded_eq_mooreCount g x y hx hy, ge_iff_le, hc]
    · intro hf
      obtain ⟨g1, hrun, -⟩ := heal_returns g x y hx hy
      exact ⟨g1, hrun fuel hf⟩
  · intro hc
    have hc2 : ¬ 6 ≤ mooreCount g x y MEDICINE := by omega
    simp only [UpdateState, or_true, if_true, cancer_ne_healthy, if_false,
        numSurrounded_eq_mooreCount g x y hx hy, ge_iff_le, hc2]

theorem mooreCount_cancerInMedicine : 6 ≤ mooreCount cancerInMedicine 5 5 MEDICINE := by
  rw [← numSurrounded_eq_mooreCount cancerInMedicine 5 5 (by decide) (by decide)]
  decide

theorem medCount_cancerInMedicine : medCount cancerInMedicine < 10 := by
  have h := medCount_le_of_subset cancerInMedicine ((Finset.Icc 4 6) ×ˢ (Finset.Icc 4 6))
    (fun c hmed => by
      simp only [Finset.mem_product, Finset.mem_Icc]
      simp only [cancerInMedicine] at hmed
      split at hmed
      · exact absurd hmed (Ne.symm medicine_ne_cancer)
      · split at hmed
        · omega
        · exact absurd hmed.symm medicine_ne_healthy)
  have h9 : ((Finset.Icc 4 6) ×ˢ (Finset.Icc 4 6) : Finset (Nat × Nat)).card = 9 := by simp
  omega

theorem updateState_cancer_rule_witness :
    UpdateState 10 cancerInMedicine 5 5 (cancerInMedicine 5 5)
        = HealSurroundingMedicine 10 cancerInMedicine 5 5 ∧
      ∃ g1, HealSurroundingMedicine 10 cancerInMedicine 5 5 = some g1 :=
  have h := (updateState_cancer_rule 10 cancerInMedicine 5 5 (by decide) (by decide)
    (by decide)).1 mooreCount_cancerInMedicine
  ⟨h.1, h.2 medCount_cancerInMedicine⟩

/-! ## The mouse stimulus -/

theorem mouseClicks_eq_foldl (g : Grid) (x y : Nat) (hnc : ¬ g x y = CANCER) :
    MouseClicks g GLUT_LEFT_BUTTON GLUT_DOWN x y =
      (guardedNbrs x y).foldl (fun h p => setCell h p.1 p.2 MEDICINE) (setCell g x y MEDICINE) := by
  by_cases h1 : x > 0 <;> by_cases h2 : y > 0 <;> by_cases h3 : x < g_windowWidth - 1 <;>
    by_cases h4 : y < g_windowHeight - 1 <;>
    simp [MouseClicks, guardedNbrs, h1, h2, h3, h4, hnc]

theorem foldl_setCell (v : Int) (L : List (Nat × Nat)) : ∀ (h : Grid) (a b : Nat),
    L.foldl (fun h p => setCell h p.1 p.2 v) h a b = if (a, b) ∈ L then v else h a b := by
  induction L with
  | nil => intro h a b; simp
  | cons p L ih =>
    intro h a b
    rw [List.foldl_cons, ih]
    by_cases hm : (a, b) ∈ L
    · simp [hm]
    · by_cases hp : (a, b) = p
      · subst hp
        simp [setCell]
      · have hp2 : ¬ (a = p.1 ∧ b = p.2) := fun hh => hp (Prod.ext hh.1 hh.2)
        simp [hm, hp, setCell, hp2]

theorem mouseClicks_cell (g : Grid) (x y : Nat) (hx : x < g_windowWidth)
    (hy : y < g_windowHeight) (hnc : ¬ g x y = CANCER) (a b : Nat) :
    MouseClicks g GLUT_LEFT_BUTTON GLUT_DOWN x y a b =
      if (a, b) = (x, y) ∨ MooreAdj (x, y) (a, b) then MEDICINE else g a b := by
  rw [mouseClicks_eq_foldl g x y hnc, foldl_setCell]
  simp only [mem_guardedNbrs x y hx hy (a, b)]
  by_cases hadj : MooreAdj (x, y) (a, b)
  · simp [hadj]
  · by_cases hp : (a, b) = (x, y)
    · simp only [hadj, if_false, hp, true_or, if_true]
      rw [Prod.mk.injEq] at hp
      simp [setCell, hp]
    · simp only [hadj, if_false, hp, or_self]
      rw [Prod.mk.injEq] at hp
      simp [setCell, hp]

theorem medCount_mouseClicks (g : Grid) (x y : Nat) (hx : x < g_windowWidth)
    (hy : y < g_windowHeight) (hnc : ¬ g x y = CANCER)
    (hnm : ∀ a b, a < g_windowWidth → b < g_windowHeight → g a b ≠ MEDICINE) :
    medCount (MouseClicks g GLUT_LEFT_BUTTON GLUT_DOWN x y) = (guardedNbrs x y).length + 1 := by
  have hset : ((Finset.range g_windowWidth) ×ˢ (Finset.range g_windowHeight)).filter
        (fun p => MouseClicks g GLUT_LEFT_BUTTON GLUT_DOWN x y p.1 p.2 = MEDICINE) =
      insert (x, y) (mooreNbrs x y) := by
    refine Finset.ext ?_
    rintro ⟨a, b⟩
    rw [Finset.mem_filter, Finset.mem_product, Finset.mem_range, Finset.mem_range,
      Finset.mem_insert, mem_mooreNbrs x y hx hy, mouseClicks_cell g x y hx hy hnc]
    constructor
    · rintro ⟨⟨ha, hb⟩, hmed⟩
      by_contra hne
      simp only [hne, if_false] at hmed
      exact hnm a b ha hb hmed
    · intro hin
      refine ⟨?_, by simp only [hin, if_true]⟩
      rcases hin with h | h
      · rw [Prod.mk.injEq] at h
        rw [h.1, h.2]
        exact ⟨hx, hy⟩
      · exact h.2.1
  have hnot : (x, y) ∉ mooreNbrs x y := by
    rw [mem_mooreNbrs x y hx hy]
    intro h
    exact h.2.2.1 rfl
  unfold medCount
  rw [hset, Finset.card_insert_of_not_mem hnot, card_mooreNbrs x y hx hy]

theorem length_guardedNbrs_corner (x y : Nat) (hx : x = 0 ∨ x = g_windowWidth - 1)
    (hy : y = 0 ∨ y = g_windowHeight - 1) : (guardedNbrs x y).length = 3 := by
  rcases hx with hx | hx <;> rcases hy with hy | hy <;> subst hx <;> subst hy <;>
    simp [guardedNbrs, g_windowWidth, g_windowHeight]

/-- C9. Stimulus on a non-`CANCER` cell: for an in-bounds `(x, y)` holding
`HEALTHY` or `MEDICINE`, the left-click branch of `MouseClicks` sets `(x, y)` and
each of its in-bounds Moore neighbours to `MEDICINE` and leaves every other cell
as it was; on a grid without `MEDICINE` the result has exactly 9 `MEDICINE`
cells for an interior point and exactly 4 for a corner point. -/
theorem mouseClicks_non_cancer (g : Grid) (x y : Nat) (hx : x < g_windowWidth)
    (hy : y < g_windowHeight) (hs : g x y = HEALTHY ∨ g x y = MEDICINE) :
    (∀ a b, MouseClicks g GLUT_LEFT_BUTTON GLUT_DOWN x y a b =
      if (a, b) = (x, y) ∨ MooreAdj (x, y) (a, b) then MEDICINE else g a b) ∧
    ((∀ a b, a < g_windowWidth → b < g_windowHeight → g a b ≠ MEDICINE) →
      (0 < x → x < g_windowWidth - 1 → 0 < y → y < g_windowHeight - 1 →
        medCount (MouseClicks g GLUT_LEFT_BUTTON GLUT_DOWN x y) = 9) ∧
      ((x = 0 ∨ x = g_windowWidth - 1) → (y = 0 ∨ y = g_windowHeight - 1) →
        medCount (MouseClicks g GLUT_LEFT_BUTTON GLUT_DOWN x y) = 4)) := by
  have hnc : ¬ g x y = CANCER := by
    rcases hs with h | h <;> rw [h]
    · exact healthy_ne_cancer
    · exact medicine_ne_cancer
  refine ⟨mouseClicks_cell g x y hx hy hnc, fun hnm => ⟨?_, ?_⟩⟩
  · intro hx0 hx1 hy0 hy1
    rw [medCount_mouseClicks g x y hx hy hnc hnm,
      length_guardedNbrs_interior x y hx0 hx1 hy0 hy1]
  · intro hcx hcy
    rw [medCount_mouseClicks g x y hx hy hnc hnm, length_guardedNbrs_corner x y hcx hcy]

theorem mouseClicks_non_cancer_witness :
    medCount (MouseClicks allHealthy GLUT_LEFT_BUTTON GLUT_DOWN 5 5) = 9 ∧
    medCount (MouseClicks allHealthy GLUT_LEFT_BUTTON GLUT_DOWN 0 767) = 4 ∧
    MouseClicks allHealthy GLUT_LEFT_BUTTON GLUT_DOWN 0 767 1 766 = MEDICINE ∧
    MouseClicks allHealthy GLUT_LEFT_BUTTON GLUT_DOWN 0 767 2 766 = HEALTHY := by
  have hnm : ∀ a b, a < g_windowWidth → b < g_windowHeight → allHealthy a b ≠ MEDICINE :=
    fun _ _ _ _ => Ne.symm medicine_ne_healthy
  have h5 := mouseClicks_non_cancer allHealthy 5 5 (by decide) (by decide) (Or.inl rfl)
  have h0 := mouseClicks_non_cancer allHealthy 0 767 (by decide) (by decide) (Or.inl rfl)
  refine ⟨(h5.2 hnm).1 (by decide) (by decide) (by decide) (by decide),
    (h0.2 hnm).2 (by decide) (by decide), ?_, ?_⟩
  · rw [h0.1 1 766]; decide
  · rw [h0.1 2 766]; decide

/-- C10. Stimulus on a `CANCER` cell: when `(x, y)` holds `CANCER`, the left-click
branch of `MouseClicks` sets `(x, y)` to `HEALTHY` and every other cell of the
grid, the eight neighbours included, keeps the value it had. -/
theorem mouseClicks_cancer (g : Grid) (x y : Nat) (hs : g x y = CANCER) :
    MouseClicks g GLUT_LEFT_BUTTON GLUT_DOWN x y x y = HEALTHY ∧
    ∀ a b, (a, b) ≠ (x, y) → MouseClicks g GLUT_LEFT_BUTTON GLUT_DOWN x y a b = g a b := by
  have h : MouseClicks g GLUT_LEFT_BUTTON GLUT_DOWN x y = setCell g x y HEALTHY := by
    simp only [MouseClicks, and_self, if_true, hs]
  rw [h]
  refine ⟨by simp [setCell], ?_⟩
  intro a b hab
  rw [ne_eq, Prod.mk.injEq] at hab
  simp only [setCell, hab, if_false]

theorem mouseClicks_cancer_witness :
    MouseClicks cancerInMedicine GLUT_LEFT_BUTTON GLUT_DOWN 5 5 5 5 = HEALTHY ∧
    MouseClicks cancerInMedicine GLUT_LEFT_BUTTON GLUT_DOWN 5 5 4 4 = MEDICINE := by
  have h := mouseClicks_cancer cancerInMedicine 5 5 (by decide)
  refine ⟨h.1, ?_⟩
  rw [h.2 4 4 (by decide)]
  decide

/-! ## The fixed threads of `Update` -/

theorem initThreadCalls_eq_product (sx sy ex ey : Nat) :
    InitThreadCalls sx sy ex ey =
      (List.range' sx (ex - sx)) ×ˢ (List.range' sy (ey - sy)) := rfl

theorem mem_initThreadCalls (sx sy ex ey : Nat) (p : Nat × Nat) :
    p ∈ InitThreadCalls sx sy ex ey ↔ (sx ≤ p.1 ∧ p.1 < ex) ∧ (sy ≤ p.2 ∧ p.2 < ey) := by
  obtain ⟨a, b⟩ := p
  rw [initThreadCalls_eq_product, List.mem_product, List.mem_range'_1, List.mem_range'_1]
  simp only
  omega

theorem nodup_initThreadCalls (sx sy ex ey : Nat) : (InitThreadCalls sx sy ex ey).Nodup := by
  rw [initThreadCalls_eq_product]
  exact List.Nodup.product (List.nodup_range' _ _) (List.nodup_range' _ _)

theorem count_initThreadCalls (sx sy ex ey : Nat) (p : Nat × Nat) :
    callCount (InitThreadCalls sx sy ex ey) p =
      if (sx ≤ p.1 ∧ p.1 < ex) ∧ (sy ≤ p.2 ∧ p.2 < ey) then 1 else 0 := by
  rw [callCount_of_nodup _ _ (nodup_initThreadCalls sx sy ex ey)]
  simp only [mem_initThreadCalls]

theorem count_updateCalls (p : Nat × Nat) :
    callCount UpdateCalls p =
      (if (0 ≤ p.1 ∧ p.1 < 513) ∧ (0 ≤ p.2 ∧ p.2 < 385) then 1 else 0) +
      (if (512 ≤ p.1 ∧ p.1 < 1024) ∧ (0 ≤ p.2 ∧ p.2 < 385) then 1 else 0) +
      (if (0 ≤ p.1 ∧ p.1 < 513) ∧ (384 ≤ p.2 ∧ p.2 < 768) then 1 else 0) +
      (if (512 ≤ p.1 ∧ p.1 < 1024) ∧ (384 ≤ p.2 ∧ p.2 < 768) then 1 else 0) := by
  simp only [UpdateCalls, callCount_append, count_initThreadCalls]

/-- C6. The four `InitThread` rectangles of `Update` overlap: the cell `(512, 384)`
is passed to `UpdateState` four times in one tick, the cells `(512, 0)` and
`(0, 384)` twice each, and the cell `(0, 0)` once. -/
theorem updateCalls_overlap :
    callCount UpdateCalls (512, 384) = 4 ∧ callCount UpdateCalls (512, 0) = 2 ∧
    callCount UpdateCalls (0, 384) = 2 ∧ callCount UpdateCalls (0, 0) = 1 := by
  simp only [count_updateCalls]
  decide

end Version1

namespace Version2

theorem doUpdateCalls_eq_product (r : BlockedRange2d) :
    DoUpdateCalls r = (List.range' r.colsBegin (r.colsEnd - r.colsBegin)) ×ˢ
      (List.range' r.rowsBegin (r.rowsEnd - r.rowsBegin)) := rfl

theorem mem_doUpdateCalls (r : BlockedRange2d) (p : Nat × Nat) :
    p ∈ DoUpdateCalls r ↔
      (r.colsBegin ≤ p.1 ∧ p.1 < r.colsEnd) ∧ (r.rowsBegin ≤ p.2 ∧ p.2 < r.rowsEnd) := by
  obtain ⟨a, b⟩ := p
  rw [doUpdateCalls_eq_product, List.mem_product, List.mem_range'_1, List.mem_range'_1]
  simp only
  omega

/-- C7. The coordinates passed by `DoUpdate::operator()` are transposed: with the
range handed over unsplit the pair `(5, 1000)`, which is outside
`g_quad[1024][768]`, is passed to `UpdateState`, and for every split into
sub-ranges each pair passed has first coordinate below 768 and second below
1024, so that the grid cell `(1000, 5)` is never passed. -/
theorem updateCalls_transposed :
    UpdateCalls [fullRange] = DoUpdateCalls fullRange ∧
    (5, 1000) ∈ UpdateCalls [fullRange] ∧ ¬ InBounds (5, 1000) ∧
    InBounds (1000, 5) ∧
    ∀ parts : List BlockedRange2d, (∀ r ∈ parts, SubRange r) →
      ∀ p ∈ UpdateCalls parts, p.1 < g_windowHeight ∧ p.2 < g_windowWidth := by
  refine ⟨by simp [UpdateCalls], ?_, by decide, by decide, ?_⟩
  · simp only [UpdateCalls, List.flatMap_cons, List.flatMap_nil, List.append_nil,
      mem_doUpdateCalls, fullRange, g_windowWidth, g_windowHeight]
    omega
  · intro parts hparts p hp
    simp only [UpdateCalls, List.mem_flatMap] at hp
    obtain ⟨r, hr, hpr⟩ := hp
    have hs := hparts r hr
    rw [mem_doUpdateCalls] at hpr
    simp only [SubRange, fullRange] at hs
    omega

end Version2

namespace Version4

theorem kernelNumSurrounded_eq (r : Buffer) (x y : Nat) (v : Int) :
    kernelNumSurrounded r x y v = Version1.numSurrounded (fun a b => r (a * 768 + b)) x y v :=
  rfl

theorem flat_read (g : Grid) (a b : Nat) (hb : b < g_windowHeight) :
    g ((a * 768 + b) / g_windowHeight) ((a * 768 + b) % g_windowHeight) = g a b := by
  simp only [g_windowHeight] at *
  have h1 : (a * 768 + b) / 768 = a := by omega
  have h2 : (a * 768 + b) % 768 = b := by omega
  rw [h1, h2]

theorem kernelNumSurrounded_flat (g : Grid) (x y : Nat) (hx : x < g_windowWidth)
    (hy : y < g_windowHeight) (v : Int) :
    kernelNumSurrounded (fun i => g (i / g_windowHeight) (i % g_windowHeight)) x y v
      = mooreCount g x y v := by
  rw [kernelNumSurrounded_eq, Version1.numSurrounded_eq_countP,
    ← countP_guardedNbrs g x y hx hy v]
  apply List.countP_congr
  intro p hp
  have hb : p.2 < g_windowHeight := ((mem_guardedNbrs x y hx hy p).mp hp).2.1.2
  simp only [flat_read g p.1 p.2 hb]

/-- The value lane `i` leaves at flat position `i`. -/
theorem updateWithGPU_eq (r w : Buffer) (i : Nat) :
    UpdateWithGPU r w i = fun j => if j = i then
      (if (r i = HEALTHY ∨ r i = CANCER) ∧
          kernelNumSurrounded r (i / 768) (i % 768)
            (if r i = HEALTHY then CANCER else if r i = CANCER then MEDICINE else 0) ≥ 6
        then (if r i = HEALTHY then CANCER else if r i = CANCER then HEALTHY else 0)
        else w i)
      else w j := by
  have hi : i / 768 * 768 + i % 768 = i := by omega
  funext j
  simp only [UpdateWithGPU, hi]
  by_cases hj : j = i
  · subst hj
    split_ifs <;> simp_all [setBuf]
  · split_ifs <;> simp_all [setBuf]

theorem foldl_updateWithGPU (r : Buffer) (l : List Nat) : ∀ (w : Buffer) (j : Nat),
    l.foldl (fun w i => UpdateWithGPU r w i) w j =
      if j ∈ l then
        (if (r j = HEALTHY ∨ r j = CANCER) ∧
            kernelNumSurrounded r (j / 768) (j % 768)
              (if r j = HEALTHY then CANCER else if r j = CANCER then MEDICINE else 0) ≥ 6
          then (if r j = HEALTHY then CANCER else if r j = CANCER then HEALTHY else 0)
          else w j)
      else w j := by
  induction l with
  | nil => intro w j; simp
  | cons i l ih =>
    intro w j
    rw [List.foldl_cons, ih, updateWithGPU_eq]
    by_cases hji : j = i
    · subst hji
      simp only [List.mem_cons, true_or, if_true]
      split_ifs <;> rfl
    · simp only [List.mem_cons, hji, false_or, if_false]

/-- The cell `(x, y)` after one tick over a list of lanes that contains every
flat index of the grid. -/
theorem updateWithOpenCL_cell (g : Grid) (l : List Nat)
    (hl : ∀ i, i < g_totalSize → i ∈ l) (x y : Nat)
    (hx : x < g_windowWidth) (hy : y < g_windowHeight) :
    UpdateWithOpenCL g l x y =
      ruleValue (g x y) (mooreCount g x y CANCER) (mooreCount g x y MEDICINE) := by
  have hmem : x * g_windowHeight + y ∈ l := by
    apply hl
    simp only [g_totalSize, g_windowWidth, g_windowHeight] at *
    omega
  have hd : (x * g_windowHeight + y) / 768 = x := by
    simp only [g_windowHeight] at *; omega
  have hm : (x * g_windowHeight + y) % 768 = y := by
    simp only [g_windowHeight] at *; omega
  have hread : g ((x * g_windowHeight + y) / g_windowHeight)
      ((x * g_windowHeight + y) % g_windowHeight) = g x y := flat_read g x y hy
  simp only [UpdateWithOpenCL, foldl_updateWithGPU, hmem, if_true, hd, hm, hread,
    kernelNumSurrounded_flat g x y hx hy, ruleValue]
  by_cases h1 : g x y = HEALTHY
  · have h2 : ¬ g x y = CANCER := by rw [h1]; decide
    simp [h1, h2]
  · by_cases h2 : g x y = CANCER
    · have h3 : ¬ (CANCER = HEALTHY) := by decide
      simp [h2, h3]
    · simp [h1, h2]

theorem mem_of_perm_range (l : List Nat) (hl : l.Perm (List.range g_totalSize)) (i : Nat)
    (hi : i < g_totalSize) : i ∈ l :=
  hl.mem_iff.mpr (List.mem_range.mpr hi)

/-- C5. The kernel tick does not depend on the order of the lanes: for two
orderings of the lane indices `0 .. g_totalSize - 1` the resulting grids are
equal, and every grid cell ends with the value the rule gives for the grid before
the tick: a `HEALTHY` cell with at least 6 `CANCER` neighbours becomes `CANCER`,
a `CANCER` cell with at least 6 `MEDICINE` neighbours becomes `HEALTHY`, every
other cell keeps its value. -/
theorem kernel_tick_order_independent (g : Grid) (l1 l2 : List Nat)
    (h1 : l1.Perm (List.range g_totalSize)) (h2 : l2.Perm (List.range g_totalSize)) :
    UpdateWithOpenCL g l1 = UpdateWithOpenCL g l2 ∧
    ∀ x y, x < g_windowWidth → y < g_windowHeight →
      UpdateWithOpenCL g l1 x y =
        if g x y = HEALTHY ∧ 6 ≤ mooreCount g x y CANCER then CANCER
        else if g x y = CANCER ∧ 6 ≤ mooreCount g x y MEDICINE then HEALTHY
        else g x y := by
  constructor
  · funext x y
    have hmem : x * g_windowHeight + y ∈ l1 ↔ x * g_windowHeight + y ∈ l2 := by
      rw [h1.mem_iff, h2.mem_iff]
    simp only [UpdateWithOpenCL, foldl_updateWithGPU, hmem]
  · intro x y hx hy
    rw [updateWithOpenCL_cell g l1 (mem_of_perm_range l1 h1) x y hx hy]
    rfl

theorem kernel_tick_order_independent_witness :
    UpdateWithOpenCL cancerInMedicine (List.range g_totalSize) =
      UpdateWithOpenCL cancerInMedicine (List.range g_totalSize).reverse ∧
    UpdateWithOpenCL cancerInMedicine (List.range g_totalSize) 5 5 = HEALTHY := by
  have h := kernel_tick_order_independent cancerInMedicine (List.range g_totalSize)
    (List.range g_totalSize).reverse (List.Perm.refl _) (List.reverse_perm _)
  refine ⟨h.1, ?_⟩
  rw [h.2 5 5 (by decide) (by decide),
    ← Version1.numSurrounded_eq_mooreCount cancerInMedicine 5 5 (by decide) (by decide),
    ← Version1.numSurrounded_eq_mooreCount cancerInMedicine 5 5 (by decide) (by decide)]
  decide

theorem kernel_tick_no_flood_counterexample :
    cancerInMedicine 5 5 = CANCER ∧ 6 ≤ mooreCount cancerInMedicine 5 5 MEDICINE ∧
    MooreAdj (5, 5) (4, 4) ∧ cancerInMedicine 4 4 = MEDICINE ∧
    UpdateWithOpenCL cancerInMedicine (List.range g_totalSize) 4 4 = MEDICINE ∧
    MEDICINE ≠ HEALTHY := by
  refine ⟨by decide, ?_, by decide, by decide, ?_, by decide⟩
  · rw [← Version1.numSurrounded_eq_mooreCount cancerInMedicine 5 5 (by decide) (by decide)]
    decide
  · rw [updateWithOpenCL_cell cancerInMedicine _
      (fun i hi => List.mem_range.mpr hi) 4 4 (by decide) (by decide)]
    have h : cancerInMedicine 4 4 = MEDICINE := by decide
    rw [h]
    simp [ruleValue, MEDICINE, HEALTHY, CANCER]

/-- C8. The kernel tick heals the single cell: a `CANCER` cell with at least 6
`MEDICINE` neighbours is `HEALTHY` after the tick, and every grid cell holding
`MEDICINE` before the tick holds `MEDICINE` after it. -/
theorem kernel_tick_heals_single_cell (g : Grid) (l : List Nat)
    (hl : l.Perm (List.range g_totalSize)) (x y : Nat)
    (hx : x < g_windowWidth) (hy : y < g_windowHeight) (hs : g x y = CANCER)
    (hc : 6 ≤ mooreCount g x y MEDICINE) :
    UpdateWithOpenCL g l x y = HEALTHY ∧
    ∀ a b, a < g_windowWidth → b < g_windowHeight → g a b = MEDICINE →
      UpdateWithOpenCL g l a b = MEDICINE := by
  constructor
  · rw [updateWithOpenCL_cell g l (mem_of_perm_range l hl) x y hx hy, hs]
    have h3 : ¬ (CANCER = HEALTHY) := by decide
    simp [ruleValue, h3, hc]
  · intro a b ha hb hm
    rw [updateWithOpenCL_cell g l (mem_of_perm_range l hl) a b ha hb, hm]
    have h1 : ¬ (MEDICINE = HEALTHY) := by decide
    have h2 : ¬ (MEDICINE = CANCER) := by decide
    simp [ruleValue, h1, h2]

theorem kernel_tick_heals_single_cell_witness :
    UpdateWithOpenCL cancerInMedicine (List.range g_totalSize) 5 5 = HEALTHY ∧
    UpdateWithOpenCL cancerInMedicine (List.range g_totalSize) 6 6 = MEDICINE := by
  have hc : 6 ≤ mooreCount cancerInMedicine 5 5 MEDICINE := by
    rw [← Version1.numSurrounded_eq_mooreCount cancerInMedicine 5 5 (by decide) (by decide)]
    decide
  have h := kernel_tick_heals_single_cell cancerInMedicine (List.range g_totalSize)
    (List.Perm.refl _) 5 5 (by decide) (by decide) (by decide) hc
  exact ⟨h.1, h.2 6 6 (by decide) (by decide) (by decide)⟩

end Version4

/-! ## Neighbourhood shape, termination and coverage -/

theorem length_guardedNbrs_edge (x y : Nat) (hx : x < g_windowWidth) (hy : y < g_windowHeight)
    (he : ((x = 0 ∨ x = g_windowWidth - 1) ∧ 0 < y ∧ y < g_windowHeight - 1) ∨
      ((y = 0 ∨ y = g_windowHeight - 1) ∧ 0 < x ∧ x < g_windowWidth - 1)) :
    (guardedNbrs x y).length = 5 := by
  by_cases h1 : x > 0 <;> by_cases h2 : y > 0 <;> by_cases h3 : x < g_windowWidth - 1 <;>
    by_cases h4 : y < g_windowHeight - 1 <;>
    first
      | (simp [guardedNbrs, h1, h2, h3, h4]; done)
      | (simp only [g_windowWidth, g_windowHeight] at *; omega)

theorem mooreAdj_iff_offsets (x y : Nat) (p : Nat × Nat) (hx : x < g_windowWidth)
    (hy : y < g_windowHeight) :
    MooreAdj (x, y) p ↔ ∃ dx dy : Int, (dx = -1 ∨ dx = 0 ∨ dx = 1) ∧ (dy = -1 ∨ dy = 0 ∨ dy = 1) ∧
      ¬ (dx = 0 ∧ dy = 0) ∧ (p.1 : Int) = x + dx ∧ (p.2 : Int) = y + dy ∧
      p.1 < g_windowWidth ∧ p.2 < g_windowHeight := by
  obtain ⟨a, b⟩ := p
  simp only [MooreAdj, InBounds, ne_eq, Prod.mk.injEq]
  constructor
  · rintro ⟨-, ⟨ha, hb⟩, hne, h1, h2, h3, h4⟩
    refine ⟨(a : Int) - x, (b : Int) - y, by omega, by omega, by omega, by omega, by omega, ha, hb⟩
  · rintro ⟨dx, dy, hdx, hdy, hne, h1, h2, ha, hb⟩
    refine ⟨⟨hx, hy⟩, ⟨ha, hb⟩, by omega, by omega, by omega, by omega, by omega⟩

namespace Version1

/-- C13. Medicine is inert under the rule: when the cell `(x, y)` holds
`MEDICINE`, `UpdateState` called with the cell's state returns the input grid,
whatever the neighbours hold. -/
theorem updateState_medicine_inert (fuel : Nat) (g : Grid) (x y : Nat)
    (hs : g x y = MEDICINE) : UpdateState fuel g x y (g x y) = some g := by
  rw [hs]
  simp only [UpdateState, medicine_ne_healthy, medicine_ne_cancer, or_self, if_false]

theorem updateState_medicine_inert_witness :
    UpdateState 0 medicineAround 7 7 (medicineAround 7 7) = some medicineAround :=
  updateState_medicine_inert 0 medicineAround 7 7 (by decide)

theorem mem_updateCalls (p : Nat × Nat) : p ∈ UpdateCalls ↔ InBounds p := by
  simp only [UpdateCalls, List.mem_append, mem_initThreadCalls, InBounds, g_windowWidth,
    g_windowHeight]
  omega

/-- C18. Coverage of the fixed threads: every coordinate pair passed to
`UpdateState` by the four `InitThread` calls of `Update` indexes `g_quad` in
bounds, every grid cell is passed at least once, and the four call lists are the
half-open rectangles `[0,513) x [0,385)`, `[512,1024) x [0,385)`,
`[0,513) x [384,768)` and `[512,1024) x [384,768)`. -/
theorem updateCalls_cover :
    (∀ p, p ∈ UpdateCalls → InBounds p) ∧
    (∀ p, InBounds p → 1 ≤ callCount UpdateCalls p) ∧
    (∀ p, p ∈ InitThreadCalls 0 0 513 385 ↔ (p.1 < 513 ∧ p.2 < 385)) ∧
    (∀ p, p ∈ InitThreadCalls 512 0 1024 385 ↔ (512 ≤ p.1 ∧ p.1 < 1024 ∧ p.2 < 385)) ∧
    (∀ p, p ∈ InitThreadCalls 0 384 513 768 ↔ (p.1 < 513 ∧ 384 ≤ p.2 ∧ p.2 < 768)) ∧
    (∀ p, p ∈ InitThreadCalls 512 384 1024 768 ↔
      (512 ≤ p.1 ∧ p.1 < 1024 ∧ 384 ≤ p.2 ∧ p.2 < 768)) := by
  refine ⟨fun p hp => (mem_updateCalls p).mp hp, ?_, ?_, ?_, ?_, ?_⟩
  · intro p hp
    rw [count_updateCalls]
    simp only [InBounds, g_windowWidth, g_windowHeight] at hp
    split_ifs <;> omega
  all_goals
    intro p
    rw [mem_initThreadCalls]
    omega

theorem updateCalls_cover_witness :
    (512, 384) ∈ UpdateCalls ∧ 1 ≤ callCount UpdateCalls (1023, 767) ∧
    InBounds (1023, 767) :=
  ⟨(mem_updateCalls (512, 384)).mpr (by decide),
   updateCalls_cover.2.1 (1023, 767) (by decide), by decide⟩

/-- C15. Clipped Moore neighbourhood: for an in-bounds `(x, y)` the guarded
neighbour accesses of `UpdateState` and of `HealSurroundingMedicine` are those of
the list `guardedNbrs x y`, whose members are exactly the cells
`(x + dx, y + dy)` with `dx, dy` in `{-1, 0, 1}`, not both `0`, that lie in the
grid; no cell occurs twice, none is out of range, and the list has 8 cells for an
interior cell, 5 for a non-corner edge cell and 3 for a corner cell. -/
theorem guarded_accesses_clipped_moore (x y : Nat) (hx : x < g_windowWidth)
    (hy : y < g_windowHeight) :
    (∀ (g : Grid) (v : Int),
      numSurrounded g x y v = (guardedNbrs x y).countP (fun p => g p.1 p.2 = v)) ∧
    (∀ (fuel : Nat) (g : Grid), HealSurroundingMedicine (fuel + 1) g x y =
      (guardedNbrs x y).foldlM (healIfMedicine fuel) (setCell g x y HEALTHY)) ∧
    (∀ p : Nat × Nat, p ∈ guardedNbrs x y ↔
      ∃ dx dy : Int, (dx = -1 ∨ dx = 0 ∨ dx = 1) ∧ (dy = -1 ∨ dy = 0 ∨ dy = 1) ∧
        ¬ (dx = 0 ∧ dy = 0) ∧ (p.1 : Int) = x + dx ∧ (p.2 : Int) = y + dy ∧
        p.1 < g_windowWidth ∧ p.2 < g_windowHeight) ∧
    (guardedNbrs x y).Nodup ∧
    (∀ p ∈ guardedNbrs x y, InBounds p) ∧
    (0 < x ∧ x < g_windowWidth - 1 ∧ 0 < y ∧ y < g_windowHeight - 1 →
      (guardedNbrs x y).length = 8) ∧
    (((x = 0 ∨ x = g_windowWidth - 1) ∧ 0 < y ∧ y < g_windowHeight - 1) ∨
      ((y = 0 ∨ y = g_windowHeight - 1) ∧ 0 < x ∧ x < g_windowWidth - 1) →
      (guardedNbrs x y).length = 5) ∧
    ((x = 0 ∨ x = g_windowWidth - 1) ∧ (y = 0 ∨ y = g_windowHeight - 1) →
      (guardedNbrs x y).length = 3) := by
  refine ⟨fun g v => numSurrounded_eq_countP g x y v, fun fuel g => heal_succ_eq_foldlM fuel g x y,
    fun p => ?_, nodup_guardedNbrs x y, fun p hp => ?_, fun h => ?_, fun h => ?_, fun h => ?_⟩
  · rw [mem_guardedNbrs x y hx hy, mooreAdj_iff_offsets x y p hx hy]
  · exact ((mem_guardedNbrs x y hx hy p).mp hp).2.1
  · exact length_guardedNbrs_interior x y h.1 h.2.1 h.2.2.1 h.2.2.2
  · exact length_guardedNbrs_edge x y hx hy h
  · exact length_guardedNbrs_corner x y h.1 h.2

theorem guarded_accesses_clipped_moore_witness :
    (guardedNbrs 5 5).length = 8 ∧ (guardedNbrs 0 5).length = 5 ∧
    (guardedNbrs 1023 767).length = 3 ∧ (guardedNbrs 0 5).Nodup ∧
    ∀ p ∈ guardedNbrs 1023 767, InBounds p :=
  ⟨(guarded_accesses_clipped_moore 5 5 (by decide) (by decide)).2.2.2.2.2.1 (by decide),
   (guarded_accesses_clipped_moore 0 5 (by decide) (by decide)).2.2.2.2.2.2.1 (by decide),
   (guarded_accesses_clipped_moore 1023 767 (by decide) (by decide)).2.2.2.2.2.2.2 (by decide),
   (guarded_accesses_clipped_moore 0 5 (by decide) (by decide)).2.2.2.1,
   (guarded_accesses_clipped_moore 1023 767 (by decide) (by decide)).2.2.2.2.1⟩

theorem healPost_medCount_le (g : Grid) (p : Nat × Nat) (g1 : Grid) (hpost : HealPost g p g1) :
    medCount g1 ≤ medCount g := by
  apply medCount_mono
  intro c hc
  by_cases hr : MedReach g p c
  · rw [(hpost c).1 hr] at hc
    exact absurd hc.symm medicine_ne_healthy
  · rw [← (hpost c).2 hr]
    exact hc

/-- C14. The flood heal terminates: for every grid and every in-bounds start
cell of any state the recursion returns a grid as soon as the recursion bound
exceeds the number of `MEDICINE` cells (in particular for the bound
`medCount g + 1`), and the result has no more `MEDICINE` cells than the input;
a neighbour is entered only when it holds `MEDICINE`, and entering it, which
sets it to `HEALTHY`, strictly lowers the number of `MEDICINE` cells. -/
theorem heal_terminates (g : Grid) (x y : Nat) (hx : x < g_windowWidth)
    (hy : y < g_windowHeight) :
    (∃ g1, HealSurroundingMedicine (medCount g + 1) g x y = some g1 ∧
      (∀ fuel, medCount g < fuel → HealSurroundingMedicine fuel g x y = some g1) ∧
      medCount g1 ≤ medCount g) ∧
    (∀ (fuel : Nat) (h : Grid) (n : Nat × Nat), h n.1 n.2 ≠ MEDICINE →
      healIfMedicine fuel h n = some h) ∧
    (∀ (h : Grid) (n : Nat × Nat), InBounds n → h n.1 n.2 = MEDICINE →
      medCount (setCell h n.1 n.2 HEALTHY) < medCount h) := by
  obtain ⟨g1, hrun, hpost⟩ := heal_returns g x y hx hy
  refine ⟨⟨g1, hrun _ (Nat.lt_succ_self _), hrun, healPost_medCount_le g (x, y) g1 hpost⟩, ?_, ?_⟩
  · intro fuel h n hn
    simp only [healIfMedicine, hn, if_false]
  · intro h n hn hmed
    exact medCount_setCell_lt h n hn hmed

theorem heal_terminates_witness :
    ∃ g1, HealSurroundingMedicine (medCount allMedicine + 1) allMedicine 0 0 = some g1 ∧
      medCount g1 ≤ medCount allMedicine := by
  obtain ⟨⟨g1, h1, -, h3⟩, -⟩ := heal_terminates allMedicine 0 0 (by decide) (by decide)
  exact ⟨g1, h1, h3⟩

end Version1

/-! ## The kernel's index mapping and its agreement with the host rule -/

namespace Version4

theorem kernelReadIndices_eq_map (x y : Nat) :
    kernelReadIndices x y = (guardedNbrs x y).map (fun p => p.1 * 768 + p.2) := by
  by_cases h1 : x > 0 <;> by_cases h2 : y > 0 <;> by_cases h3 : x < g_windowWidth - 1 <;>
    by_cases h4 : y < g_windowHeight - 1 <;>
    simp only [g_windowWidth, g_windowHeight] at h3 h4 <;>
    simp [kernelReadIndices, guardedNbrs, g_windowWidth, g_windowHeight, h1, h2, h3, h4]

theorem kernelNumSurrounded_eq_countP (r : Buffer) (x y : Nat) (v : Int) :
    kernelNumSurrounded r x y v = (kernelReadIndices x y).countP (fun k => r k = v) := by
  rw [kernelNumSurrounded_eq, Version1.numSurrounded_eq_countP, kernelReadIndices_eq_map,
    List.countP_map]
  rfl

theorem kernelReadIndices_lt (x y : Nat) (hx : x < g_windowWidth) (hy : y < g_windowHeight)
    (k : Nat) (hk : k ∈ kernelReadIndices x y) : k < g_totalSize := by
  rw [kernelReadIndices_eq_map, List.mem_map] at hk
  obtain ⟨p, hp, hpk⟩ := hk
  have hb := ((mem_guardedNbrs x y hx hy p).mp hp).2.1
  simp only [InBounds, g_windowWidth, g_windowHeight] at hb
  simp only [g_totalSize, g_windowWidth, g_windowHeight]
  omega

theorem encodeV4_eq_iff (a v : Int) : encodeV4 a = encodeV4 v ↔ a = v := by
  simp only [encodeV4, Version1.HEALTHY, Version1.CANCER, Version1.MEDICINE, HEALTHY, CANCER,
    MEDICINE]
  split_ifs <;> omega

theorem mooreCount_encode (g : Grid) (x y : Nat) (v : Int) :
    mooreCount (fun a b => encodeV4 (g a b)) x y (encodeV4 v) = mooreCount g x y v := by
  simp only [mooreCount, encodeV4_eq_iff]

/-- The value lane `x * 768 + y` writes, or leaves, at its own position when both
buffers hold the grid `g`. -/
theorem updateWithGPU_own_cell (g : Grid) (x y : Nat) (hx : x < g_windowWidth)
    (hy : y < g_windowHeight) :
    UpdateWithGPU (fun i => g (i / g_windowHeight) (i % g_windowHeight))
        (fun i => g (i / g_windowHeight) (i % g_windowHeight)) (x * 768 + y) (x * 768 + y) =
      ruleValue (g x y) (mooreCount g x y CANCER) (mooreCount g x y MEDICINE) := by
  have hd : (x * 768 + y) / 768 = x := by
    simp only [g_windowHeight] at *; omega
  have hm : (x * 768 + y) % 768 = y := by
    simp only [g_windowHeight] at *; omega
  have hread : g ((x * 768 + y) / g_windowHeight) ((x * 768 + y) % g_windowHeight) = g x y :=
    flat_read g x y hy
  rw [updateWithGPU_eq]
  simp only [if_true, hd, hm, hread, kernelNumSurrounded_flat g x y hx hy, ruleValue]
  by_cases h1 : g x y = HEALTHY
  · have h2 : ¬ g x y = CANCER := by rw [h1]; decide
    simp [h1, h2]
  · by_cases h2 : g x y = CANCER
    · have h3 : ¬ (CANCER = HEALTHY) := by decide
      simp [h2, h3]
    · simp [h1, h2]

theorem updateWithGPU_other_cell (r w : Buffer) (i j : Nat) (hj : j ≠ i) :
    UpdateWithGPU r w i j = w j := by
  rw [updateWithGPU_eq]
  simp only [hj, if_false]

/-- The host rule at the evaluated cell: with enough recursion bound `UpdateState`
returns a grid whose cell `(x, y)` holds the rule value, and any other cell that
changed was a `MEDICINE` cell healed from a `CANCER` cell `(x, y)`. -/
theorem updateState_own_cell (fuel : Nat) (g : Grid) (x y : Nat) (hx : x < g_windowWidth)
    (hy : y < g_windowHeight) (hf : Version1.medCount g < fuel) :
    ∃ g1, Version1.UpdateState fuel g x y (g x y) = some g1 ∧
      g1 x y = (if g x y = Version1.HEALTHY ∧ 6 ≤ mooreCount g x y Version1.CANCER
        then Version1.CANCER
        else if g x y = Version1.CANCER ∧ 6 ≤ mooreCount g x y Version1.MEDICINE
        then Version1.HEALTHY else g x y) ∧
      ∀ a b, (a, b) ≠ (x, y) → g1 a b ≠ g a b →
        g x y = Version1.CANCER ∧ g a b = Version1.MEDICINE ∧ g1 a b = Version1.HEALTHY := by
  by_cases h1 : g x y = Version1.HEALTHY
  · by_cases hc : 6 ≤ mooreCount g x y Version1.CANCER
    · refine ⟨setCell g x y Version1.CANCER, ?_, ?_, ?_⟩
      · rw [h1]
        simp only [Version1.UpdateState, true_or, if_true,
          Version1.numSurrounded_eq_mooreCount g x y hx hy, ge_iff_le, hc,
          Version1.healthy_ne_cancer, if_false]
      · simp [setCell, h1, hc]
      · intro a b hab hne
        rw [ne_eq, Prod.mk.injEq] at hab
        simp [setCell, hab] at hne
    · refine ⟨g, ?_, ?_, ?_⟩
      · rw [h1]
        simp only [Version1.UpdateState, true_or, if_true,
          Version1.numSurrounded_eq_mooreCount g x y hx hy, ge_iff_le, hc, if_false]
      · simp [h1, hc, Version1.healthy_ne_cancer]
      · intro a b _ hne
        exact absurd rfl hne
  · by_cases h2 : g x y = Version1.CANCER
    · by_cases hc : 6 ≤ mooreCount g x y Version1.MEDICINE
      · obtain ⟨g1, hrun, hpost⟩ := Version1.heal_returns g x y hx hy
        refine ⟨g1, ?_, ?_, ?_⟩
        · rw [h2]
          simp only [Version1.UpdateState, or_true, if_true, Version1.cancer_ne_healthy,
            if_false, Version1.numSurrounded_eq_mooreCount g x y hx hy, ge_iff_le, hc]
          exact hrun fuel hf
        · rw [(hpost (x, y)).1 Relation.ReflTransGen.refl]
          simp [h2, hc, Version1.cancer_ne_healthy]
        · intro a b hab hne
          by_cases hr : Version1.MedReach g (x, y) (a, b)
          · refine ⟨h2, ?_, (hpost (a, b)).1 hr⟩
            rcases Relation.ReflTransGen.cases_tail hr with h | ⟨c, -, hs⟩
            · exact absurd h hab
            · exact hs.2
          · exact absurd ((hpost (a, b)).2 hr) hne
      · refine ⟨g, ?_, ?_, ?_⟩
        · rw [h2]
          simp only [Version1.UpdateState, or_true, if_true, Version1.cancer_ne_healthy,
            if_false, Version1.numSurrounded_eq_mooreCount g x y hx hy, ge_iff_le, hc]
        · simp [h1, hc]
        · intro a b _ hne
          exact absurd rfl hne
    · refine ⟨g, ?_, ?_, ?_⟩
      · simp only [Version1.UpdateState, h1, h2, or_self, if_false]
      · simp [h1, h2]
      · intro a b _ hne
        exact absurd rfl hne

/-- C20. Host rule and kernel rule agree on the evaluated cell: for an in-bounds
cell `(x, y)` and a recursion bound above the number of `MEDICINE` cells,
`Version1.UpdateState` returns a grid whose value at `(x, y)`, translated to the
kernel's encoding, is the value the kernel lane `x * 768 + y` leaves at its
position of the write buffer when both buffers hold the translated grid; the
lane leaves every other position as it was, and any other cell changed by the
host is a `MEDICINE` cell set to `HEALTHY` by the heal of a `CANCER` cell. -/
theorem host_kernel_agree_on_cell (fuel : Nat) (g : Grid) (x y : Nat)
    (hx : x < g_windowWidth) (hy : y < g_windowHeight) (hf : Version1.medCount g < fuel) :
    ∃ g1, Version1.UpdateState fuel g x y (g x y) = some g1 ∧
      encodeV4 (g1 x y) =
        UpdateWithGPU (hostToDevice g) (hostToDevice g) (x * 768 + y) (x * 768 + y) ∧
      (∀ j, j ≠ x * 768 + y →
        UpdateWithGPU (hostToDevice g) (hostToDevice g) (x * 768 + y) j = hostToDevice g j) ∧
      (∀ a b, (a, b) ≠ (x, y) → g1 a b ≠ g a b →
        g x y = Version1.CANCER ∧ g a b = Version1.MEDICINE ∧ g1 a b = Version1.HEALTHY) := by
  obtain ⟨g1, hrun, hcell, hframe⟩ := updateState_own_cell fuel g x y hx hy hf
  refine ⟨g1, hrun, ?_, fun j hj => updateWithGPU_other_cell _ _ _ j hj, hframe⟩
  have hk := updateWithGPU_own_cell (fun a b => encodeV4 (g a b)) x y hx hy
  have e1 := mooreCount_encode g x y Version1.CANCER
  have e2 := mooreCount_encode g x y Version1.MEDICINE
  have c1 : encodeV4 Version1.CANCER = CANCER := by decide
  have c2 : encodeV4 Version1.MEDICINE = MEDICINE := by decide
  have c3 : encodeV4 Version1.HEALTHY = HEALTHY := by decide
  rw [c1] at e1
  rw [c2] at e2
  have hk2 : UpdateWithGPU (hostToDevice g) (hostToDevice g) (x * 768 + y) (x * 768 + y) =
      ruleValue (encodeV4 (g x y)) (mooreCount g x y Version1.CANCER)
        (mooreCount g x y Version1.MEDICINE) := by
    rw [← e1, ← e2]
    exact hk
  rw [hk2, hcell]
  have i1 : encodeV4 (g x y) = HEALTHY ↔ g x y = Version1.HEALTHY := by
    rw [← c3, encodeV4_eq_iff]
  have i2 : encodeV4 (g x y) = CANCER ↔ g x y = Version1.CANCER := by
    rw [← c1, encodeV4_eq_iff]
  simp only [ruleValue, i1, i2]
  split_ifs <;> rfl

theorem host_kernel_agree_on_cell_witness :
    ∃ g1, Version1.UpdateState 10 Version1.cancerInMedicine 5 5 (Version1.cancerInMedicine 5 5)
        = some g1 ∧
      encodeV4 (g1 5 5) =
        UpdateWithGPU (hostToDevice Version1.cancerInMedicine)
          (hostToDevice Version1.cancerInMedicine) (5 * 768 + 5) (5 * 768 + 5) := by
  obtain ⟨g1, h1, h2, -⟩ := host_kernel_agree_on_cell 10 Version1.cancerInMedicine 5 5
    (by decide) (by decide) Version1.medCount_cancerInMedicine
  exact ⟨g1, h1, h2⟩

end Version4

/-! ## The seeding loop -/

namespace Version1

theorem g_initialCancer_eq : g_initialCancer = 204472 := by decide

theorem cancerCount_setCell (g : Grid) (x y : Nat) (hx : x < g_windowWidth)
    (hy : y < g_windowHeight) (hc : ¬ g x y = CANCER) :
    cancerCount (setCell g x y CANCER) = cancerCount g + 1 := by
  have hset : ((Finset.range g_windowWidth) ×ˢ (Finset.range g_windowHeight)).filter
        (fun p => setCell g x y CANCER p.1 p.2 = CANCER) =
      insert (x, y) (((Finset.range g_windowWidth) ×ˢ (Finset.range g_windowHeight)).filter
        (fun p => g p.1 p.2 = CANCER)) := by
    refine Finset.ext ?_
    rintro ⟨a, b⟩
    rw [Finset.mem_insert, Finset.mem_filter, Finset.mem_filter, Finset.mem_product,
      Finset.mem_range, Finset.mem_range, Prod.mk.injEq]
    simp only [setCell]
    by_cases hab : a = x ∧ b = y
    · simp only [hab, and_self, if_true, true_or, and_true, iff_true]
      exact ⟨hx, hy⟩
    · simp only [hab, if_false, false_or]
  have hnot : (x, y) ∉ ((Finset.range g_windowWidth) ×ˢ (Finset.range g_windowHeight)).filter
        (fun p => g p.1 p.2 = CANCER) := by
    rw [Finset.mem_filter]
    rintro ⟨-, h⟩
    exact hc h
  unfold cancerCount
  rw [hset, Finset.card_insert_of_not_mem hnot]

theorem seedLoop_invariant (rand : Nat → Nat) (fuel : Nat) : ∀ (k : Nat) (i : Int) (g g1 : Grid),
    seedLoop rand fuel k i g = some g1 → i ≤ (g_initialCancer : Int) + 1 →
    (cancerCount g : Int) = i → OnlyHealthyOrCancer g →
    cancerCount g1 = g_initialCancer + 1 ∧ OnlyHealthyOrCancer g1 := by
  induction fuel with
  | zero =>
    intro k i g g1 hrun
    simp [seedLoop] at hrun
  | succ fuel ih =>
    intro k i g g1 hrun hi hcnt honly
    simp only [seedLoop] at hrun
    split at hrun
    · split at hrun
      · exact ih _ _ _ _ hrun (by omega) (by omega) honly
      · rename_i hle hc
        have hx : rand k % 1024 < g_windowWidth := Nat.mod_lt _ (by decide)
        have hy : rand (k + 1) % 768 < g_windowHeight := Nat.mod_lt _ (by decide)
        refine ih _ _ _ _ hrun (by omega) ?_ ?_
        · rw [cancerCount_setCell g _ _ hx hy hc]
          push_cast
          omega
        · intro a b
          simp only [setCell]
          split
          · exact Or.inr rfl
          · exact honly a b
    · rename_i hgt
      have hg : g = g1 := Option.some.inj hrun
      subst hg
      refine ⟨?_, honly⟩
      omega

theorem cancerCount_allHealthy : cancerCount allHealthy = 0 := by
  unfold cancerCount
  rw [Finset.card_eq_zero, Finset.filter_eq_empty_iff]
  intro p _
  exact healthy_ne_cancer

theorem firstCells_zero : firstCells 0 = allHealthy := by
  funext a b
  simp [firstCells, allHealthy]

theorem firstCells_succ (j : Nat) :
    setCell (firstCells j) (j / 768) (j % 768) CANCER = firstCells (j + 1) := by
  funext a b
  simp only [setCell, firstCells]
  by_cases hab : a = j / 768 ∧ b = j % 768
  · have h : b < 768 ∧ a * 768 + b < j + 1 := by omega
    simp only [hab, and_self, if_true]
    rw [if_pos (by omega)]
  · simp only [hab, if_false]
    by_cases h : b < 768 ∧ a * 768 + b < j
    · rw [if_pos h, if_pos (by omega)]
    · rw [if_neg h, if_neg (by omega)]

theorem seedLoop_rowMajor (m : Nat) : ∀ j : Nat, j + m = g_initialCancer + 1 →
    seedLoop rowMajorRand (m + 1) (2 * j) (j : Int) (firstCells j) =
      some (firstCells (g_initialCancer + 1)) := by
  induction m with
  | zero =>
    intro j hj
    have hgt : ¬ ((j : Int) ≤ (g_initialCancer : Int)) := by omega
    simp only [seedLoop, hgt, if_false]
    rw [show j = g_initialCancer + 1 by omega]
  | succ m ih =>
    intro j hj
    have hN := g_initialCancer_eq
    have hle : (j : Int) ≤ (g_initialCancer : Int) := by omega
    have hx : rowMajorRand (2 * j) % 1024 = j / 768 := by
      simp only [rowMajorRand]
      rw [if_pos (by omega)]
      omega
    have hy : rowMajorRand (2 * j + 1) % 768 = j % 768 := by
      simp only [rowMajorRand]
      rw [if_neg (by omega)]
      omega
    have hh : ¬ firstCells j (j / 768) (j % 768) = CANCER := by
      simp only [firstCells]
      rw [if_neg (by omega)]
      exact healthy_ne_cancer
    have hstep := ih (j + 1) (by omega)
    rw [seedLoop]
    simp only [hle, if_true, hx, hy, hh, if_false, firstCells_succ]
    rw [show 2 * j + 2 = 2 * (j + 1) by omega]
    exact_mod_cast hstep

theorem seedLoop_rowMajor_returns :
    seedLoop rowMajorRand (g_initialCancer + 2) 0 0 allHealthy =
      some (firstCells (g_initialCancer + 1)) := by
  have h := seedLoop_rowMajor (g_initialCancer + 1) 0 (by omega)
  rw [firstCells_zero] at h
  exact h

/-- C11. Seeding lower bound: whenever the seeding loop, started on the
all-`HEALTHY` grid, ends for a stream of `rand()` values, the final grid has at
least `0.26 * 1024 * 768` cells holding `CANCER` (so at least 204013), every cell
that is not `CANCER` is `HEALTHY`, and no cell is `MEDICINE`. -/
theorem seeding_lower_bound (rand : Nat → Nat) (fuel : Nat) (g1 : Grid)
    (hrun : seedLoop rand fuel 0 0 allHealthy = some g1) :
    (0.26 : ℚ) * 1024 * 768 ≤ (cancerCount g1 : ℚ) ∧ 204013 ≤ cancerCount g1 ∧
    (∀ a b, g1 a b ≠ CANCER → g1 a b = HEALTHY) ∧ (∀ a b, g1 a b ≠ MEDICINE) := by
  have hN := g_initialCancer_eq
  obtain ⟨hcnt, honly⟩ := seedLoop_invariant rand fuel 0 0 allHealthy g1 hrun (by omega)
    (by rw [cancerCount_allHealthy]; rfl) (fun _ _ => Or.inl rfl)
  have h : cancerCount g1 = 204473 := by omega
  refine ⟨?_, by omega, ?_, ?_⟩
  · rw [h]
    norm_num
  · intro a b hne
    rcases honly a b with h1 | h1
    · exact h1
    · exact absurd h1 hne
  · intro a b hm
    rcases honly a b with h1 | h1
    · rw [h1] at hm
      exact medicine_ne_healthy hm.symm
    · rw [h1] at hm
      exact medicine_ne_cancer hm.symm

theorem seeding_lower_bound_witness :
    seedLoop rowMajorRand (g_initialCancer + 2) 0 0 allHealthy =
      some (firstCells (g_initialCancer + 1)) ∧
    (0.26 : ℚ) * 1024 * 768 ≤ (cancerCount (firstCells (g_initialCancer + 1)) : ℚ) ∧
    204013 ≤ cancerCount (firstCells (g_initialCancer + 1)) :=
  have h := seeding_lower_bound rowMajorRand (g_initialCancer + 2)
    (firstCells (g_initialCancer + 1)) seedLoop_rowMajor_returns
  ⟨seedLoop_rowMajor_returns, h.1, h.2.1⟩

/-- C19. Seeding exact count: with `g_initialCancer = 204472`, whenever the
seeding loop ends the final grid has exactly `g_initialCancer + 1 = 204473`
cells holding `CANCER`; an iteration that picks a `CANCER` cell continues with
the same counter and grid, and an iteration that picks another cell continues
with the counter advanced by one and one more `CANCER` cell. -/
theorem seeding_exact_count (rand : Nat → Nat) (fuel : Nat) (g1 : Grid)
    (hrun : seedLoop rand fuel 0 0 allHealthy = some g1) :
    g_initialCancer = 204472 ∧ cancerCount g1 = g_initialCancer + 1 ∧
    cancerCount g1 = 204473 ∧
    (∀ (n k : Nat) (i : Int) (g : Grid), i ≤ (g_initialCancer : Int) →
      g (rand k % 1024) (rand (k + 1) % 768) = CANCER →
      seedLoop rand (n + 1) k i g = seedLoop rand n (k + 2) i g) ∧
    (∀ (n k : Nat) (i : Int) (g : Grid), i ≤ (g_initialCancer : Int) →
      g (rand k % 1024) (rand (k + 1) % 768) ≠ CANCER →
      seedLoop rand (n + 1) k i g =
        seedLoop rand n (k + 2) (i + 1) (setCell g (rand k % 1024) (rand (k + 1) % 768) CANCER) ∧
      cancerCount (setCell g (rand k % 1024) (rand (k + 1) % 768) CANCER) =
        cancerCount g + 1) := by
  have hN := g_initialCancer_eq
  obtain ⟨hcnt, -⟩ := seedLoop_invariant rand fuel 0 0 allHealthy g1 hrun (by omega)
    (by rw [cancerCount_allHealthy]; rfl) (fun _ _ => Or.inl rfl)
  refine ⟨hN, hcnt, by omega, ?_, ?_⟩
  · intro n k i g hi hc
    rw [seedLoop]
    simp only [hi, if_true, hc, sub_add_cancel]
  · intro n k i g hi hc
    constructor
    · rw [seedLoop]
      simp only [hi, if_true, hc, if_false]
    · exact cancerCount_setCell g _ _ (Nat.mod_lt _ (by decide)) (Nat.mod_lt _ (by decide)) hc

theorem seeding_exact_count_witness :
    seedLoop rowMajorRand (g_initialCancer + 2) 0 0 allHealthy =
      some (firstCells (g_initialCancer + 1)) ∧
    cancerCount (firstCells (g_initialCancer + 1)) = 204473 :=
  ⟨seedLoop_rowMajor_returns,
   (seeding_exact_count rowMajorRand (g_initialCancer + 2)
    (firstCells (g_initialCancer + 1)) seedLoop_rowMajor_returns).2.2.1⟩

/-! ## The in-place sweep against the kernel tick -/

theorem initThreadCalls_split :
    ∃ pre post : List (Nat × Nat),
      InitThreadCalls 0 0 1024 768 = pre ++ (5, 5) :: (5, 6) :: post := by
  have hx : List.range' 0 (1024 - 0) = List.range' 0 5 ++ 5 :: List.range' 6 1018 := by
    rw [← List.range'_succ 5 1018 1, ← List.range'_append_1 0 5 1019]
  have hy : List.range' 0 (768 - 0) = List.range' 0 5 ++ 5 :: 6 :: List.range' 7 761 := by
    rw [← List.range'_succ 6 761 1, ← List.range'_succ 5 762 1, ← List.range'_append_1 0 5 763]
  refine ⟨(List.range' 0 5).flatMap (fun i => (List.range' 0 (768 - 0)).map fun j => (i, j)) ++
      (List.range' 0 5).map (fun j => (5, j)),
    (List.range' 7 761).map (fun j => (5, j)) ++
      (List.range' 6 1018).flatMap (fun i => (List.range' 0 (768 - 0)).map fun j => (i, j)), ?_⟩
  unfold InitThreadCalls
  rw [hx, List.flatMap_append, List.flatMap_cons]
  nth_rewrite 2 [hy]
  simp only [List.map_append, List.map_cons, List.append_assoc, List.cons_append]

theorem numSurrounded_mono (g h : Grid) (x y : Nat) (v : Int)
    (hle : ∀ a b, g a b = v → h a b = v) : numSurrounded g x y v ≤ numSurrounded h x y v := by
  rw [numSurrounded_eq_countP, numSurrounded_eq_countP]
  apply List.countP_mono_left
  intro p _ hp
  simp only [decide_eq_true_eq] at hp ⊢
  exact hle p.1 p.2 hp

theorem numSurrounded_medicine_zero (g : Grid) (honly : OnlyHealthyOrCancer g) (x y : Nat) :
    numSurrounded g x y MEDICINE = 0 := by
  rw [numSurrounded_eq_countP, List.countP_eq_zero]
  intro p _
  simp only [decide_eq_true_eq]
  rcases honly p.1 p.2 with h | h <;> rw [h]
  · exact fun hm => medicine_ne_healthy hm.symm
  · exact fun hm => medicine_ne_cancer hm.symm

/-- One `UpdateState` call on a grid without `MEDICINE`. -/
theorem updateState_no_medicine (fuel : Nat) (g : Grid) (honly : OnlyHealthyOrCancer g)
    (x y : Nat) :
    ∃ g1, UpdateState fuel g x y (g x y) = some g1 ∧ OnlyHealthyOrCancer g1 ∧ CancerLe g g1 ∧
      (6 ≤ numSurrounded g x y CANCER → g1 x y = CANCER) := by
  rcases honly x y with hs | hs
  · by_cases hc : 6 ≤ numSurrounded g x y CANCER
    · refine ⟨setCell g x y CANCER, ?_, ?_, ?_, ?_⟩
      · rw [hs]
        simp only [UpdateState, true_or, if_true, ge_iff_le, hc, healthy_ne_cancer, if_false]
      · intro a b
        simp only [setCell]
        split
        · exact Or.inr rfl
        · exact honly a b
      · intro a b hab
        simp only [setCell]
        split
        · rfl
        · exact hab
      · intro _
        simp [setCell]
    · refine ⟨g, ?_, honly, fun _ _ h => h, fun h => absurd h hc⟩
      rw [hs]
      simp only [UpdateState, true_or, if_true, ge_iff_le, hc, if_false]
  · refine ⟨g, ?_, honly, fun _ _ h => h, fun _ => hs⟩
    rw [hs]
    have h0 := numSurrounded_medicine_zero g honly x y
    simp only [UpdateState, or_true, if_true, cancer_ne_healthy, if_false, h0, ge_iff_le]
    rfl

/-- A run of `UpdateState` calls on a grid without `MEDICINE`. -/
theorem foldlM_updateState_no_medicine (fuel : Nat) (l : List (Nat × Nat)) : ∀ (g : Grid),
    OnlyHealthyOrCancer g →
    ∃ g1, l.foldlM (fun g p => UpdateState fuel g p.1 p.2 (g p.1 p.2)) g = some g1 ∧
      OnlyHealthyOrCancer g1 ∧ CancerLe g g1 := by
  induction l with
  | nil =>
    intro g honly
    exact ⟨g, rfl, honly, fun _ _ h => h⟩
  | cons p l ih =>
    intro g honly
    obtain ⟨g1, hrun1, honly1, hle1, -⟩ := updateState_no_medicine fuel g honly p.1 p.2
    obtain ⟨g2, hrun2, honly2, hle2⟩ := ih g1 honly1
    refine ⟨g2, ?_, honly2, fun a b h => hle2 a b (hle1 a b h)⟩
    rw [List.foldlM_cons, hrun1]
    exact hrun2

/-- The in-place sweep `InitThread(0, 0, 1024, 768)` on `divergeGrid` returns a
grid in which `(5, 5)` and `(5, 6)` are `CANCER`. -/
theorem initThread_divergeGrid (fuel : Nat) :
    ∃ g1, InitThread fuel divergeGrid 0 0 1024 768 = some g1 ∧
      g1 5 5 = CANCER ∧ g1 5 6 = CANCER := by
  obtain ⟨pre, post, hsplit⟩ := initThreadCalls_split
  have h0 : OnlyHealthyOrCancer divergeGrid := by
    intro a b
    simp only [divergeGrid]
    split
    · exact Or.inr rfl
    · exact Or.inl rfl
  obtain ⟨ga, hruna, honlya, hlea⟩ := foldlM_updateState_no_medicine fuel pre divergeGrid h0
  obtain ⟨gb, hrunb, honlyb, hleb, hcellb⟩ := updateState_no_medicine fuel ga honlya 5 5
  have hA : gb 5 5 = CANCER := by
    apply hcellb
    have h7 : numSurrounded divergeGrid 5 5 CANCER = 7 := by decide
    have hm := numSurrounded_mono divergeGrid ga 5 5 CANCER hlea
    omega
  obtain ⟨gc, hrunc, honlyc, hlec, hcellc⟩ := updateState_no_medicine fuel gb honlyb 5 6
  have hB : gc 5 6 = CANCER := by
    apply hcellc
    have h6 : numSurrounded (setCell divergeGrid 5 5 CANCER) 5 6 CANCER = 6 := by decide
    have hm := numSurrounded_mono (setCell divergeGrid 5 5 CANCER) gb 5 6 CANCER (by
      intro a b hab
      simp only [setCell] at hab
      split at hab
      · rename_i h
        rw [h.1, h.2]
        exact hA
      · exact hleb a b (hlea a b hab))
    omega
  obtain ⟨gd, hrund, -, hled⟩ := foldlM_updateState_no_medicine fuel post gc honlyc
  refine ⟨gd, ?_, hled 5 5 (hlec 5 5 hA), hled 5 6 hB⟩
  unfold InitThread
  rw [hsplit, List.foldlM_append, hruna]
  simp only [Option.bind_eq_bind, Option.some_bind, List.foldlM_cons, hrunb, hrunc]
  exact hrund

end Version1

namespace Version4

/-- C17. In-place and double-buffered semantics diverge: there is a grid of
`HEALTHY` and `CANCER` cells on which the single-threaded in-place sweep
`InitThread(0, 0, 1024, 768)` returns a grid that differs, at an in-bounds cell,
from the grid of one kernel tick: the cell has 5 `CANCER` neighbours in the
starting grid and stays `HEALTHY` in the kernel tick, but is `CANCER` after the
sweep, because its neighbour `(x, y - 1)`, evaluated just before it, was
converted from `HEALTHY` to `CANCER`. -/
theorem inplace_sweep_differs_from_kernel_tick :
    ∃ g : Grid, (∀ a b, g a b = Version1.HEALTHY ∨ g a b = Version1.CANCER) ∧
      ∀ fuel : Nat, ∃ g1, Version1.InitThread fuel g 0 0 1024 768 = some g1 ∧
        ∃ x y : Nat, x < g_windowWidth ∧ y < g_windowHeight ∧
          encodeV4 (g1 x y) ≠
            UpdateWithOpenCL (fun a b => encodeV4 (g a b)) (List.range g_totalSize) x y ∧
          g1 x y = Version1.CANCER ∧
          UpdateWithOpenCL (fun a b => encodeV4 (g a b)) (List.range g_totalSize) x y
            = HEALTHY ∧
          mooreCount g x y Version1.CANCER = 5 ∧
          g x (y - 1) = Version1.HEALTHY ∧ g1 x (y - 1) = Version1.CANCER := by
  refine ⟨Version1.divergeGrid, ?_, ?_⟩
  · intro a b
    simp only [Version1.divergeGrid]
    split
    · exact Or.inr rfl
    · exact Or.inl rfl
  · intro fuel
    obtain ⟨g1, hrun, hA, hB⟩ := Version1.initThread_divergeGrid fuel
    have hcount : mooreCount Version1.divergeGrid 5 6 Version1.CANCER = 5 := by
      rw [← Version1.numSurrounded_eq_mooreCount _ 5 6 (by decide) (by decide)]
      decide
    have hk : UpdateWithOpenCL (fun a b => encodeV4 (Version1.divergeGrid a b))
        (List.range g_totalSize) 5 6 = HEALTHY := by
      rw [updateWithOpenCL_cell _ _ (fun i hi => List.mem_range.mpr hi) 5 6 (by decide)
        (by decide)]
      have e1 := mooreCount_encode Version1.divergeGrid 5 6 Version1.CANCER
      have c1 : encodeV4 Version1.CANCER = CANCER := by decide
      rw [c1] at e1
      rw [e1, hcount]
      have hv : encodeV4 (Version1.divergeGrid 5 6) = HEALTHY := by decide
      simp only [hv, ruleValue]
      decide
    refine ⟨g1, hrun, 5, 6, by decide, by decide, ?_, hB, hk, hcount, by decide, hA⟩
    rw [hk, hB]
    decide

end Version4

/-! ## Medicine in the kernel-offload variant -/

namespace Version4

theorem ruleValue_eq_medicine_iff (s : Int) (nc nm : Nat) :
    ruleValue s nc nm = MEDICINE ↔ s = MEDICINE := by
  simp only [ruleValue, HEALTHY, CANCER, MEDICINE]
  split_ifs <;> omega

theorem kernelVariant_mouseClicks_eq_foldl (g : Grid) (x y : Nat) (hnc : ¬ g x y = CANCER) :
    MouseClicks g GLUT_LEFT_BUTTON GLUT_DOWN x y =
      (guardedNbrs x y).foldl (fun h p => setCell h p.1 p.2 MEDICINE) (setCell g x y MEDICINE) := by
  by_cases h1 : x > 0 <;> by_cases h2 : y > 0 <;> by_cases h3 : x < g_windowWidth - 1 <;>
    by_cases h4 : y < g_windowHeight - 1 <;>
    simp [MouseClicks, guardedNbrs, h1, h2, h3, h4, hnc]

theorem mouseClicks_keeps_medicine (g : Grid) (button state : Int) (x y a b : Nat)
    (hm : g a b = MEDICINE) : MouseClicks g button state x y a b = MEDICINE := by
  by_cases hb : button = GLUT_LEFT_BUTTON ∧ state = GLUT_DOWN
  · obtain ⟨hb1, hb2⟩ := hb
    subst hb1
    subst hb2
    by_cases hc : g x y = CANCER
    · have h : MouseClicks g GLUT_LEFT_BUTTON GLUT_DOWN x y = setCell g x y HEALTHY := by
        simp only [MouseClicks, and_self, if_true, hc]
      have hne : ¬ (a = x ∧ b = y) := by
        rintro ⟨rfl, rfl⟩
        rw [hm] at hc
        exact absurd hc (by decide)
      rw [h]
      simp only [setCell, hne, if_false]
      exact hm
    · rw [kernelVariant_mouseClicks_eq_foldl g x y hc, Version1.foldl_setCell]
      simp only [setCell, hm]
      split_ifs <;> rfl
  · simp only [MouseClicks, hb, if_false]
    exact hm

theorem updateWithOpenCL_medicine_iff (g : Grid) (l : List Nat)
    (hl : l.Perm (List.range g_totalSize)) (x y : Nat) (hx : x < g_windowWidth)
    (hy : y < g_windowHeight) : UpdateWithOpenCL g l x y = MEDICINE ↔ g x y = MEDICINE := by
  rw [updateWithOpenCL_cell g l (mem_of_perm_range l hl) x y hx hy, ruleValue_eq_medicine_iff]

theorem applyEvent_keeps_medicine (g : Grid) (e : Event) (he : ValidEvent e) (a b : Nat)
    (ha : a < g_windowWidth) (hb : b < g_windowHeight) (hm : g a b = MEDICINE) :
    applyEvent g e a b = MEDICINE := by
  cases e with
  | tick lanes => exact (updateWithOpenCL_medicine_iff g lanes he a b ha hb).mpr hm
  | click button state x y => exact mouseClicks_keeps_medicine g button state x y a b hm

theorem runEvents_keeps_medicine (events : List Event) : ∀ (g : Grid),
    (∀ e ∈ events, ValidEvent e) → ∀ a b, a < g_windowWidth → b < g_windowHeight →
    g a b = MEDICINE → runEvents g events a b = MEDICINE := by
  induction events with
  | nil => intro g _ a b _ _ hm; exact hm
  | cons e es ih =>
    intro g hv a b ha hb hm
    have h1 := applyEvent_keeps_medicine g e (hv e (List.mem_cons_self e es)) a b ha hb hm
    exact ih (applyEvent g e) (fun e2 he2 => hv e2 (List.mem_cons_of_mem e he2)) a b ha hb h1

/-- C21. In the kernel-offload variant `MEDICINE` is never removed: after one
kernel tick a grid cell holds `MEDICINE` exactly when it held `MEDICINE` before;
after an in-bounds left click every cell that held `MEDICINE` still holds it;
and along every sequence of ticks and in-bounds clicks a grid cell that holds
`MEDICINE` at some point holds `MEDICINE` from then on. -/
theorem medicine_never_removed (g : Grid) (events : List Event)
    (hv : ∀ e ∈ events, ValidEvent e) :
    (∀ (l : List Nat), l.Perm (List.range g_totalSize) →
      ∀ x y, x < g_windowWidth → y < g_windowHeight →
        (UpdateWithOpenCL g l x y = MEDICINE ↔ g x y = MEDICINE)) ∧
    (∀ x y, x < g_windowWidth → y < g_windowHeight →
      ∀ a b, g a b = MEDICINE → MouseClicks g GLUT_LEFT_BUTTON GLUT_DOWN x y a b = MEDICINE) ∧
    (∀ a b, a < g_windowWidth → b < g_windowHeight → g a b = MEDICINE →
      runEvents g events a b = MEDICINE) ∧
    (∀ (more : List Event), (∀ e ∈ more, ValidEvent e) →
      ∀ a b, a < g_windowWidth → b < g_windowHeight →
        runEvents g events a b = MEDICINE → runEvents g (events ++ more) a b = MEDICINE) := by
  refine ⟨fun l hl x y hx hy => updateWithOpenCL_medicine_iff g l hl x y hx hy,
    fun x y _ _ a b hm => mouseClicks_keeps_medicine g _ _ x y a b hm,
    fun a b ha hb hm => runEvents_keeps_medicine events g hv a b ha hb hm, ?_⟩
  intro more hmore a b ha hb hm
  have happ : runEvents g (events ++ more) = runEvents (runEvents g events) more := by
    simp only [runEvents, List.foldl_append]
  rw [happ]
  exact runEvents_keeps_medicine more _ hmore a b ha hb hm

theorem medicine_never_removed_witness :
    cancerInMedicine 4 4 = MEDICINE ∧
    UpdateWithOpenCL cancerInMedicine (List.range g_totalSize) 5 5 = HEALTHY ∧
    runEvents cancerInMedicine
      [Event.tick (List.range g_totalSize), Event.click GLUT_LEFT_BUTTON GLUT_DOWN 5 5,
        Event.tick (List.range g_totalSize).reverse] 4 4 = MEDICINE := by
  have hv : ∀ e ∈ [Event.tick (List.range g_totalSize),
      Event.click GLUT_LEFT_BUTTON GLUT_DOWN 5 5,
      Event.tick (List.range g_totalSize).reverse], ValidEvent e := by
    intro e he
    simp only [List.mem_cons, List.mem_singleton, List.not_mem_nil, or_false] at he
    rcases he with h | h | h <;> subst h
    · exact List.Perm.refl _
    · exact ⟨by decide, by decide⟩
    · exact List.reverse_perm _
  have h := medicine_never_removed cancerInMedicine _ hv
  refine ⟨by decide, ?_, h.2.2.1 4 4 (by decide) (by decide) (by decide)⟩
  rw [updateWithOpenCL_cell cancerInMedicine _ (fun i hi => List.mem_range.mpr hi) 5 5
    (by decide) (by decide),
    ← Version1.numSurrounded_eq_mooreCount cancerInMedicine 5 5 (by decide) (by decide),
    ← Version1.numSurrounded_eq_mooreCount cancerInMedicine 5 5 (by decide) (by decide)]
  decide

end Version4

/-! ## Clicks outside the grid -/

namespace Version1

theorem rawRead_nat (g : Grid) (a b : Nat) (ha : a < g_windowWidth) (hb : b < g_windowHeight) :
    rawRead g (a : Int) (b : Int) = Outcome.ok (g a b) := by
  have h : InExtents (a : Int) (b : Int) := by
    simp only [InExtents]; omega
  simp only [rawRead, h, if_true, Int.toNat_ofNat]

theorem rawWrite_nat (g : Grid) (a b : Nat) (v : Int) (ha : a < g_windowWidth)
    (hb : b < g_windowHeight) :
    rawWrite g (a : Int) (b : Int) v = Outcome.ok (setCell g a b v) := by
  have h : InExtents (a : Int) (b : Int) := by
    simp only [InExtents]; omega
  simp only [rawWrite, h, if_true, Int.toNat_ofNat]

theorem rawRead_outside (g : Grid) (x y : Int) (h : ¬ InExtents x y) :
    rawRead g x y = Outcome.undefinedBehaviour := by
  simp only [rawRead, h, if_false]

theorem mouseClicksRaw_outside (g : Grid) (x y : Int) (h : ¬ InExtents x y) :
    MouseClicksRaw g GLUT_LEFT_BUTTON GLUT_DOWN x y = Outcome.undefinedBehaviour := by
  simp only [MouseClicksRaw, and_self, if_true, rawRead_outside g x y h, Outcome.bind]

theorem bind_ok {α β : Type} (a : α) (f : α → Outcome β) :
    (Outcome.ok a).bind f = f a := rfl

theorem guarded_rawWrite (h : Grid) (c cN : Prop) [Decidable c] [Decidable cN] (hc : c ↔ cN)
    (xi yi : Int) (a b : Nat) (v : Int)
    (hab : cN → xi = (a : Int) ∧ yi = (b : Int) ∧ a < g_windowWidth ∧ b < g_windowHeight) :
    (if c then rawWrite h xi yi v else Outcome.ok h) =
      Outcome.ok (if cN then setCell h a b v else h) := by
  by_cases hcN : cN
  · obtain ⟨h1, h2, h3, h4⟩ := hab hcN
    rw [if_pos (hc.mpr hcN), if_pos hcN, h1, h2, rawWrite_nat h a b v h3 h4]
  · rw [if_neg (fun h => hcN (hc.mp h)), if_neg hcN]

theorem mouseClicksRaw_inside (g : Grid) (button state : Int) (x y : Nat)
    (hx : x < g_windowWidth) (hy : y < g_windowHeight) :
    MouseClicksRaw g button state (x : Int) (y : Int) =
      Outcome.ok (MouseClicks g button state x y) := by
  by_cases hb : button = GLUT_LEFT_BUTTON ∧ state = GLUT_DOWN
  · simp only [MouseClicksRaw, MouseClicks, hb, and_self, if_true, rawRead_nat g x y hx hy,
      bind_ok]
    by_cases hc : g x y = CANCER
    · simp only [hc, if_true, rawWrite_nat g x y _ hx hy]
    · simp only [hc, if_false, rawWrite_nat g x y _ hx hy, bind_ok]
      have hW : g_windowWidth = 1024 := rfl
      have hH : g_windowHeight = 768 := rfl
      rw [guarded_rawWrite _ _ (x > 0 ∧ y > 0) (by omega) _ _ (x - 1) (y - 1) _ (by omega),
        bind_ok,
        guarded_rawWrite _ _ (y > 0) (by omega) _ _ x (y - 1) _ (by omega), bind_ok,
        guarded_rawWrite _ _ (x < g_windowWidth - 1 ∧ y > 0) (by omega) _ _ (x + 1) (y - 1) _
          (by omega), bind_ok,
        guarded_rawWrite _ _ (x > 0) (by omega) _ _ (x - 1) y _ (by omega), bind_ok,
        guarded_rawWrite _ _ (x < g_windowWidth - 1) (by omega) _ _ (x + 1) y _ (by omega),
        bind_ok,
        guarded_rawWrite _ _ (x > 0 ∧ y < g_windowHeight - 1) (by omega) _ _ (x - 1) (y + 1) _
          (by omega), bind_ok,
        guarded_rawWrite _ _ (y < g_windowHeight - 1) (by omega) _ _ x (y + 1) _ (by omega),
        bind_ok,
        guarded_rawWrite _ _ (x < g_windowWidth - 1 ∧ y < g_windowHeight - 1) (by omega) _ _
          (x + 1) (y + 1) _ (by omega)]
  · simp only [MouseClicksRaw, MouseClicks, hb, if_false]

theorem mouseClicks_out_of_bounds_counterexample :
    ¬ InExtents 1024 5 ∧
    MouseClicksRaw allHealthy GLUT_LEFT_BUTTON GLUT_DOWN 1024 5 = Outcome.undefinedBehaviour ∧
    MouseClicksRaw allHealthy GLUT_LEFT_BUTTON GLUT_DOWN 1024 5 ≠ Outcome.outOfBounds := by
  have h : ¬ InExtents 1024 5 := by decide
  have h2 := mouseClicksRaw_outside allHealthy 1024 5 h
  refine ⟨h, h2, ?_⟩
  rw [h2]
  exact fun hh => Outcome.noConfusion hh

/-- C12. Out-of-bounds clicks are not checked: for a click coordinate outside
`[0,1024) x [0,768)` the left-click branch of `MouseClicks` starts with the
read `g_quad[x][y]`, an array access outside the declared extents, so the run is
undefined behaviour and not an `OutOfBounds` failure; for click coordinates
inside the grid every access is in range and the run returns the grid of
`MouseClicks`. -/
theorem mouseClicks_unchecked (g : Grid) (x y : Int) (hout : ¬ InExtents x y) :
    MouseClicksRaw g GLUT_LEFT_BUTTON GLUT_DOWN x y = Outcome.undefinedBehaviour ∧
    MouseClicksRaw g GLUT_LEFT_BUTTON GLUT_DOWN x y ≠ Outcome.outOfBounds ∧
    rawRead g x y = Outcome.undefinedBehaviour ∧
    (∀ (a b : Nat), a < g_windowWidth → b < g_windowHeight →
      MouseClicksRaw g GLUT_LEFT_BUTTON GLUT_DOWN (a : Int) (b : Int) =
        Outcome.ok (MouseClicks g GLUT_LEFT_BUTTON GLUT_DOWN a b)) := by
  have h2 := mouseClicksRaw_outside g x y hout
  refine ⟨h2, ?_, rawRead_outside g x y hout,
    fun a b ha hb => mouseClicksRaw_inside g _ _ a b ha hb⟩
  rw [h2]
  exact fun hh => Outcome.noConfusion hh

theorem mouseClicks_unchecked_witness :
    ¬ InExtents (-1) 5 ∧
    MouseClicksRaw medicineAround GLUT_LEFT_BUTTON GLUT_DOWN (-1) 5
      = Outcome.undefinedBehaviour ∧
    MouseClicksRaw medicineAround GLUT_LEFT_BUTTON GLUT_DOWN 5 768
      = Outcome.undefinedBehaviour :=
  ⟨by decide, (mouseClicks_unchecked medicineAround (-1) 5 (by decide)).1,
    (mouseClicks_unchecked medicineAround 5 768 (by decide)).1⟩

end Version1

/-! ## The lane of a cell -/

namespace Version4

theorem updateWithOpenCL_single_lane (g : Grid) (i x y : Nat) :
    UpdateWithOpenCL g [i] x y =
      UpdateWithGPU (fun k => g (k / g_windowHeight) (k % g_windowHeight))
        (fun k => g (k / g_windowHeight) (k % g_windowHeight)) i (x * 768 + y) := rfl

/-- C16. The flat index of the kernel: for a lane `i` below `g_totalSize` the
kernel's `x = i / 768` and `y = i % 768` are in bounds and `x * 768 + y = i`;
the lane run by `UpdateWithGPU` writes no position other than `i`, and what it
leaves at `i` is the rule applied to `readQuad[i]` and to the guarded neighbour
indices of `(i / 768, i % 768)`; on the buffers copied from `g_quad` a tick of
the single lane `i` gives the cell `(i / 768, i % 768)` its rule value and leaves
every other grid cell as it was; conversely every grid cell `(x, y)` is the cell
of the one lane `x * 768 + y`; and every guarded neighbour index the lane reads
is below `g_totalSize`. -/
theorem kernel_flat_index (i : Nat) (hi : i < g_totalSize) :
    (i / 768 < g_windowWidth ∧ i % 768 < g_windowHeight ∧ i / 768 * 768 + i % 768 = i) ∧
    (∀ (r w : Buffer) (j : Nat), j ≠ i → UpdateWithGPU r w i j = w j) ∧
    (∀ (r w : Buffer), UpdateWithGPU r w i i =
      if (r i = HEALTHY ∨ r i = CANCER) ∧
          (kernelReadIndices (i / 768) (i % 768)).countP (fun k => r k =
            (if r i = HEALTHY then CANCER else if r i = CANCER then MEDICINE else 0)) ≥ 6
      then (if r i = HEALTHY then CANCER else if r i = CANCER then HEALTHY else 0)
      else w i) ∧
    (∀ g : Grid, UpdateWithOpenCL g [i] (i / 768) (i % 768) =
      ruleValue (g (i / 768) (i % 768)) (mooreCount g (i / 768) (i % 768) CANCER)
        (mooreCount g (i / 768) (i % 768) MEDICINE)) ∧
    (∀ (g : Grid) (a b : Nat), a < g_windowWidth → b < g_windowHeight →
      (a, b) ≠ (i / 768, i % 768) → UpdateWithOpenCL g [i] a b = g a b) ∧
    (∀ x y : Nat, x < g_windowWidth → y < g_windowHeight →
      x * 768 + y < g_totalSize ∧ (x * 768 + y) / 768 = x ∧ (x * 768 + y) % 768 = y ∧
      (∀ j : Nat, j / 768 = x → j % 768 = y → j = x * 768 + y) ∧
      (∀ g : Grid, UpdateWithOpenCL g [] x y = g x y) ∧
      (∀ g : Grid, UpdateWithOpenCL g [x * 768 + y] x y =
        ruleValue (g x y) (mooreCount g x y CANCER) (mooreCount g x y MEDICINE)) ∧
      (∀ (g : Grid) (j : Nat), j ≠ x * 768 + y → UpdateWithOpenCL g [j] x y = g x y)) ∧
    (∀ (r : Buffer) (v : Int), kernelNumSurrounded r (i / 768) (i % 768) v =
      (kernelReadIndices (i / 768) (i % 768)).countP (fun k => r k = v)) ∧
    (∀ k ∈ kernelReadIndices (i / 768) (i % 768), k < g_totalSize) := by
  have hx : i / 768 < g_windowWidth := by
    simp only [g_totalSize, g_windowWidth, g_windowHeight] at *; omega
  have hy : i % 768 < g_windowHeight := by
    simp only [g_windowHeight]; omega
  have hrec : i / 768 * 768 + i % 768 = i := by omega
  refine ⟨⟨hx, hy, hrec⟩, ?_, ?_, ?_, ?_, ?_,
    fun r v => kernelNumSurrounded_eq_countP r _ _ v,
    fun k hk => kernelReadIndices_lt _ _ hx hy k hk⟩
  · intro r w j hj
    simp only [UpdateWithGPU, hrec]
    split_ifs <;> simp only [setBuf, hj, if_false]
  · intro r w
    simp only [UpdateWithGPU, hrec, kernelNumSurrounded_eq_countP]
    split_ifs <;> simp_all [setBuf]
  · intro g
    have h := updateWithGPU_own_cell g (i / 768) (i % 768) hx hy
    rw [updateWithOpenCL_single_lane]
    rw [hrec] at h ⊢
    exact h
  · intro g a b ha hb hab
    rw [updateWithOpenCL_single_lane, updateWithGPU_other_cell]
    · exact flat_read g a b hb
    · intro h
      apply hab
      simp only [g_windowHeight] at hb
      rw [Prod.mk.injEq]
      omega
  · intro x y hx2 hy2
    have hy3 : y < 768 := by simpa only [g_windowHeight] using hy2
    refine ⟨?_, by omega, by omega, fun j h1 h2 => by omega, ?_, ?_, ?_⟩
    · simp only [g_totalSize, g_windowWidth, g_windowHeight] at *; omega
    · intro g
      simp only [UpdateWithOpenCL, List.foldl_nil]
      exact flat_read g x y hy2
    · intro g
      rw [updateWithOpenCL_single_lane]
      exact updateWithGPU_own_cell g x y hx2 hy2
    · intro g j hj
      rw [updateWithOpenCL_single_lane, updateWithGPU_other_cell _ _ _ _ (Ne.symm hj)]
      exact flat_read g x y hy2

theorem kernel_flat_index_witness :
    3845 / 768 = 5 ∧ 3845 % 768 = 5 ∧
    UpdateWithOpenCL cancerInMedicine [3845] 5 5 = HEALTHY ∧
    UpdateWithOpenCL cancerInMedicine [3845] 4 4 = MEDICINE ∧
    (∀ k ∈ kernelReadIndices (3845 / 768) (3845 % 768), k < g_totalSize) := by
  have h := kernel_flat_index 3845 (by decide)
  refine ⟨by decide, by decide, ?_, ?_, h.2.2.2.2.2.2.2⟩
  · have h5 := h.2.2.2.1 cancerInMedicine
    have e1 : 3845 / 768 = 5 := by decide
    have e2 : 3845 % 768 = 5 := by decide
    rw [e1, e2] at h5
    rw [h5, ← Version1.numSurrounded_eq_mooreCount cancerInMedicine 5 5 (by decide) (by decide),
      ← Version1.numSurrounded_eq_mooreCount cancerInMedicine 5 5 (by decide) (by decide)]
    decide
  · rw [h.2.2.2.2.1 cancerInMedicine 4 4 (by decide) (by decide) (by decide)]
    decide

end Version4

end CellGrowth
